import Mathlib

/-!
# Verification of the FRIDA backend job pipeline and image-quality core

Shallow embedding of the core of the FRIDA backend:

* the job worker (`app/services/job_worker.py`): `JobWorker.process_job`,
  `JobWorker._handle_failure`, `JobWorker._get_retry_delay`;
* the job store helpers (`app/database.py`): `update_job_progress`,
  `increment_job_attempt`, `complete_job`, `fail_job`, `get_next_queued_job`;
* the quality validator (`app/services/husk_layer.py`): `HuskLayer`;
* the image composer (`app/services/image_composer.py`): `ImageComposer`.

External collaborators (Supabase storage and tables, the rembg model, PIL's
resampling kernels) are modelled as environments: each pipeline stage call is
an `Except String` outcome supplied by a `WorkerEnv`, and PIL's `resize` /
`GaussianBlur` / paste-blend arithmetic are parameters constrained only by
the size/mode contracts the source relies on, with Pillow's zero-size
`resize` raise modelled explicitly.
-/

/-! ## Job data model (`jobs` table fields read and written by the core) -/

/-- Job status values (`queued`, `processing`, `completed`, `failed`). -/
inductive JStatus
  | queued
  | processing
  | completed
  | failed
deriving DecidableEq, Repr

/-- The `output_data` payload written by `complete_job` (step 7 of
`process_job`): image-record ids (absent when registration failed),
quality results and the segmentation provider used. -/
structure OutputData where
  segImageId : Option Nat
  procImageId : Option Nat
  qualityScore : Int
  qualityPassed : Bool
  providerUsed : String
deriving DecidableEq, Repr

/-- One row of the `jobs` table, restricted to the fields the worker
reads or writes.  `hasOrigPath` models whether `input_data` contains
`original_path`. -/
structure JobRec where
  status : JStatus
  currentStep : String
  progress : Nat
  attempts : Nat
  maxAttempts : Nat
  provider : Option String
  lastError : Option String
  nextRetryAt : Option Nat
  hasOrigPath : Bool
  output : Option OutputData
deriving DecidableEq, Repr

/-- The slice of persistent state `process_job` can touch for one job id:
the job row (`none` models a missing row) and the list of storage buckets
uploaded to (in order). -/
structure Store where
  job : Option JobRec
  uploads : List String
deriving DecidableEq, Repr

/-- Outcomes of the external calls made during one processing attempt.
`Except.error` models the call raising an exception.  `now` is the wall
clock read by `increment_job_attempt` when computing `next_retry_at`. -/
structure WorkerEnv where
  now : Nat
  download : Except String Nat
  segment : Except String (Nat × String)
  composeStep : Except String Nat
  validate : Except String (Int × Bool)
  uploadSeg : Except String Unit
  uploadProc : Except String Unit
  registerSeg : Except String (Option Nat)
  registerProc : Except String (Option Nat)

/-! ## Job store helpers (`app/database.py`) -/

/-- `update_job_progress`: partial update, only non-`None` fields change;
an empty update or a missing row changes nothing. -/
def update_job_progress (st : Store) (status : Option JStatus) (step : Option String)
    (prog : Option Nat) (prov : Option String) (lastErr : Option String) : Store :=
  if status = none ∧ step = none ∧ prog = none ∧ prov = none ∧ lastErr = none then st
  else
    match st.job with
    | none => st
    | some j =>
        { st with job := some { j with
            status := status.getD j.status
            currentStep := step.getD j.currentStep
            progress := prog.getD j.progress
            provider := match prov with | some p => some p | none => j.provider
            lastError := match lastErr with | some e => some e | none => j.lastError } }

/-- `complete_job`: set status `completed`, step `done`, progress 100 and
store `output_data`. -/
def complete_job (st : Store) (out : OutputData) : Store :=
  match st.job with
  | none => st
  | some j =>
      { st with job := some { j with
          status := JStatus.completed
          currentStep := "done"
          progress := 100
          output := some out } }

/-- `fail_job`: terminal failure; sets status `failed`, records the error and
forces `attempts = max_attempts` so the job is never retried. -/
def fail_job (st : Store) (error : String) : Store :=
  match st.job with
  | none => st
  | some j =>
      { st with job := some { j with
          status := JStatus.failed
          lastError := some error
          attempts := j.maxAttempts } }

/-- Result dict of `increment_job_attempt`. -/
structure AttemptResult where
  attempts : Nat
  maxAttempts : Nat
  shouldRetry : Bool
deriving DecidableEq, Repr

/-- `increment_job_attempt`: bump the attempt counter, record the error, set
status `failed`, and, when a retry is still possible and a non-zero delay was
given, write `next_retry_at = now + delay`. -/
def increment_job_attempt (env : WorkerEnv) (st : Store) (error : String) (delay : Nat) :
    Store × AttemptResult :=
  match st.job with
  | none => (st, ⟨0, 3, false⟩)
  | some j =>
      let newAttempts := j.attempts + 1
      let shouldRetry : Bool := newAttempts < j.maxAttempts
      let j' := { j with
        attempts := newAttempts
        lastError := some error
        status := JStatus.failed
        nextRetryAt := if shouldRetry ∧ delay ≠ 0 then some (env.now + delay) else j.nextRetryAt }
      ({ st with job := some j' }, ⟨newAttempts, j.maxAttempts, shouldRetry⟩)

/-! ## JobWorker retry configuration and failure handling -/

/-- `JobWorker.RETRY_DELAYS = [2, 4, 8]` (seconds). -/
def RETRY_DELAYS : List Nat := [2, 4, 8]

/-- `JobWorker.MAX_ATTEMPTS = 3`. -/
def WORKER_MAX_ATTEMPTS : Nat := 3

/-- `JobWorker._get_retry_delay`: re-reads the job and indexes
`RETRY_DELAYS` by `min(attempts, len(RETRY_DELAYS) - 1)`. -/
def get_retry_delay (st : Store) : Nat :=
  match st.job with
  | none => RETRY_DELAYS.getD 0 2
  | some j => RETRY_DELAYS.getD (min j.attempts (RETRY_DELAYS.length - 1)) 2

/-- `JobWorker._handle_failure`: increment the attempt with the backoff
delay; if retries remain leave the job retryable, otherwise mark it
terminally failed.  Always returns `False`. -/
def handle_failure (env : WorkerEnv) (st : Store) (error : String) : Bool × Store :=
  let delay := get_retry_delay st
  let res := increment_job_attempt env st error delay
  if res.2.shouldRetry then (false, res.1)
  else (false, fail_job res.1
    ("Falhou apos " ++ toString WORKER_MAX_ATTEMPTS ++ " tentativas. Ultimo erro: " ++ error))

/-- Record an upload to a storage bucket (`JobWorker._upload_to_storage`). -/
def record_upload (st : Store) (bucket : String) : Store :=
  { st with uploads := st.uploads ++ [bucket] }

/-- The `try:` body of `process_job` (stages 1-7): each stage consults the
environment; the first stage exception aborts with the pending state and the
error message.  Exceptions of the two `create_image` registrations (stage 6)
are caught locally and leave the image id as `None`. -/
def run_pipeline (env : WorkerEnv) (st0 : Store) (job : JobRec) : Store × Option String :=
  if job.hasOrigPath = false then
    (st0, some "original_path nao encontrado no input_data")
  else
    let st1 := update_job_progress st0 none (some "downloading") (some 10) none none
    match env.download with
    | .error e => (st1, some e)
    | .ok _ =>
      let st2 := update_job_progress st1 none none (some 20) none none
      let st3 := update_job_progress st2 none (some "segmenting") (some 25) none none
      match env.segment with
      | .error e => (st3, some e)
      | .ok sg =>
        let st4 := update_job_progress st3 none none (some 50) (some sg.2) none
        let st5 := update_job_progress st4 none (some "composing") (some 55) none none
        match env.composeStep with
        | .error e => (st5, some e)
        | .ok _ =>
          let st6 := update_job_progress st5 none none (some 75) none none
          let st7 := update_job_progress st6 none (some "validating") (some 78) none none
          match env.validate with
          | .error e => (st7, some e)
          | .ok qr =>
            let st8 := update_job_progress st7 none none (some 85) none none
            let st9 := update_job_progress st8 none (some "saving") (some 88) none none
            match env.uploadSeg with
            | .error e => (st9, some e)
            | .ok _ =>
              let stA := record_upload st9 "segmented"
              let stB := update_job_progress stA none none (some 92) none none
              match env.uploadProc with
              | .error e => (stB, some e)
              | .ok _ =>
                let stC := record_upload stB "processed-images"
                let stD := update_job_progress stC none none (some 95) none none
                let segId := match env.registerSeg with
                  | .ok v => v
                  | .error _ => none
                let procId := match env.registerProc with
                  | .ok v => v
                  | .error _ => none
                let stE := update_job_progress stD none (some "done") (some 100) none none
                (complete_job stE ⟨segId, procId, qr.1, qr.2, sg.2⟩, none)

/-- `JobWorker.process_job`: load the job, reject unless status is `queued`
or `failed`, mark it `processing`, run the pipeline, and route any pipeline
exception to `_handle_failure`. -/
def process_job (env : WorkerEnv) (st : Store) : Bool × Store :=
  match st.job with
  | none => (false, st)
  | some job =>
      if job.status = JStatus.queued ∨ job.status = JStatus.failed then
        let st1 := update_job_progress st (some JStatus.processing) (some "downloading") (some 5) none none
        match run_pipeline env st1 job with
        | (st2, none) => (true, st2)
        | (st2, some e) => handle_failure env st2 e
      else (false, st)

/-! ## Claim-side stage-exception predicates -/

/-- Whether an `Except` outcome models a raised exception. -/
def exceptErrored : Except String α → Bool
  | .error _ => true
  | .ok _ => false

/-- Claim-side predicate: some call executed during the attempt raised,
including the two locally-caught `create_image` registrations (a later stage
is only reached, hence only counted, when every earlier stage succeeded). -/
def attempt_raised (env : WorkerEnv) (job : JobRec) : Bool :=
  if job.hasOrigPath = false then true
  else match env.download with
  | .error _ => true
  | .ok _ => match env.segment with
    | .error _ => true
    | .ok _ => match env.composeStep with
      | .error _ => true
      | .ok _ => match env.validate with
        | .error _ => true
        | .ok _ => match env.uploadSeg with
          | .error _ => true
          | .ok _ => match env.uploadProc with
            | .error _ => true
            | .ok _ => exceptErrored env.registerSeg || exceptErrored env.registerProc

/-- Like `attempt_raised` but restricted to the stages whose exceptions
reach the top-level handler of `process_job` (registration excluded). -/
def pipeline_core_raised (env : WorkerEnv) (job : JobRec) : Bool :=
  if job.hasOrigPath = false then true
  else match env.download with
  | .error _ => true
  | .ok _ => match env.segment with
    | .error _ => true
    | .ok _ => match env.composeStep with
      | .error _ => true
      | .ok _ => match env.validate with
        | .error _ => true
        | .ok _ => match env.uploadSeg with
          | .error _ => true
          | .ok _ => match env.uploadProc with
            | .error _ => true
            | .ok _ => false

/-! ## `get_next_queued_job` (`app/database.py`) -/

/-- One row of the `jobs` table as seen by the dequeue query. -/
structure QJob where
  id : Nat
  status : JStatus
  createdAt : Nat
  nextRetryAt : Option Nat
  attempts : Nat
  maxAttempts : Nat
deriving DecidableEq, Repr

/-- `ORDER BY key ASC LIMIT 1`: the first row with minimal key (ties keep
the earlier row). -/
def minByKey (key : QJob → Nat) : List QJob → Option QJob
  | [] => none
  | j :: js =>
      match minByKey key js with
      | none => some j
      | some k => if key j ≤ key k then some j else some k

/-- The `status = failed AND next_retry_at <= now` filter of the second
query (a NULL `next_retry_at` never satisfies `lte`). -/
def retryElapsed (now : Nat) (j : QJob) : Bool :=
  decide (j.status = JStatus.failed) &&
    (match j.nextRetryAt with
     | some t => decide (t ≤ now)
     | none => false)

/-- `get_next_queued_job`: first the oldest `queued` row by `created_at`;
otherwise the `failed` row with the smallest elapsed `next_retry_at`, which
is returned only if its own `attempts < max_attempts`, else `None`. -/
def get_next_queued_job (jobs : List QJob) (now : Nat) : Option QJob :=
  match minByKey QJob.createdAt (jobs.filter (fun j => decide (j.status = JStatus.queued))) with
  | some j => some j
  | none =>
      match minByKey (fun j => j.nextRetryAt.getD 0) (jobs.filter (retryElapsed now)) with
      | some j => if j.attempts < j.maxAttempts then some j else none
      | none => none

/-- A `failed` job that claim C2 calls retry-eligible: elapsed
`next_retry_at` and retries remaining. -/
def eligibleFailed (now : Nat) (j : QJob) : Prop :=
  j.status = JStatus.failed ∧ (∃ t, j.nextRetryAt = some t ∧ t ≤ now) ∧
    j.attempts < j.maxAttempts

/-! ## Claims about the worker, stated as the spec states them -/

/-- Claim C1 as stated: an exception raised in any stage of the attempt is
routed to the failure handler (`process_job` returns `False`) and the job is
never reported `completed`. -/
def claimC1 : Prop :=
  ∀ (env : WorkerEnv) (st : Store) (job : JobRec),
    st.job = some job →
    (job.status = JStatus.queued ∨ job.status = JStatus.failed) →
    attempt_raised env job = true →
    (process_job env st).1 = false ∧
      (process_job env st).2.job.map JobRec.status ≠ some JStatus.completed

/-- Claim C2 as stated: FIFO over `queued` by creation time, falling back to
a `failed` job with elapsed `next_retry_at` and retries remaining whenever
one exists, and `None` only when neither exists. -/
def claimC2 : Prop :=
  ∀ (jobs : List QJob) (now : Nat),
    ((∃ j ∈ jobs, j.status = JStatus.queued) →
      ∃ j, get_next_queued_job jobs now = some j ∧ j ∈ jobs ∧
        j.status = JStatus.queued ∧
        ∀ k ∈ jobs, k.status = JStatus.queued → j.createdAt ≤ k.createdAt) ∧
    ((¬ ∃ j ∈ jobs, j.status = JStatus.queued) →
      (∃ j ∈ jobs, eligibleFailed now j) →
      ∃ j, get_next_queued_job jobs now = some j ∧ j ∈ jobs ∧ eligibleFailed now j) ∧
    ((¬ ∃ j ∈ jobs, j.status = JStatus.queued) →
      (¬ ∃ j ∈ jobs, eligibleFailed now j) →
      get_next_queued_job jobs now = none)

/-- Claim C3 as stated: the third failure of a 3-attempt job is terminal
(`failed`, `attempts = 3`), terminal rows are never dequeued again, and no
core operation moves a job out of `completed` or out of terminal `failed`. -/
def claimC3 : Prop :=
  (∀ (env : WorkerEnv) (st : Store) (j : JobRec) (e : String),
    st.job = some j → j.attempts = 2 → j.maxAttempts = 3 →
    ∃ j', (handle_failure env st e).2.job = some j' ∧
      j'.status = JStatus.failed ∧ j'.attempts = 3) ∧
  (∀ (jobs : List QJob) (now : Nat) (j : QJob),
    get_next_queued_job jobs now = some j →
    j.status ≠ JStatus.completed ∧ (j.status = JStatus.failed → j.attempts < j.maxAttempts)) ∧
  (∀ (env : WorkerEnv) (st : Store) (j : JobRec),
    st.job = some j →
    (j.status = JStatus.completed ∨ (j.status = JStatus.failed ∧ j.attempts = j.maxAttempts)) →
    (process_job env st).2.job.map JobRec.status = some j.status)

/-! ## Concrete environments and stores for counterexamples and witnesses -/

/-- Environment in which every external call succeeds. -/
def envAllOk : WorkerEnv :=
  ⟨100, .ok 1, .ok (2, "rembg"), .ok 3, .ok (95, true), .ok (), .ok (), .ok (some 7), .ok (some 8)⟩

/-- Environment in which only the `create_image` registration of the
segmented variant raises (stage 6); every other call succeeds. -/
def envRegisterFails : WorkerEnv :=
  ⟨100, .ok 1, .ok (2, "rembg"), .ok 3, .ok (95, true), .ok (), .ok (), .error "db down", .ok (some 8)⟩

/-- Environment in which segmentation raises (all providers failed). -/
def envSegmentFails : WorkerEnv :=
  ⟨100, .ok 1, .error "Segmentacao falhou com todos os providers", .ok 3, .ok (95, true),
    .ok (), .ok (), .ok (some 7), .ok (some 8)⟩

/-- A freshly queued job row. -/
def jobQueued : JobRec :=
  ⟨JStatus.queued, "uploading", 0, 0, 3, none, none, none, true, none⟩

/-- A terminally failed job row: `attempts = max_attempts = 3`, with the
stale `next_retry_at` left over from the second failure. -/
def jobTerminalFailed : JobRec :=
  ⟨JStatus.failed, "segmenting", 25, 3, 3, none, some "boom", some 50, true, none⟩

/-- A completed job row. -/
def jobCompleted : JobRec :=
  ⟨JStatus.completed, "done", 100, 1, 3, some "rembg", none, none, true,
    some ⟨some 7, some 8, 95, true, "rembg"⟩⟩

/-- A failed job row on its second attempt (one failure recorded). -/
def jobOneFailure : JobRec :=
  ⟨JStatus.failed, "segmenting", 25, 1, 3, none, some "boom", some 50, true, none⟩

/-- Store holding a queued job. -/
def stQueued : Store := ⟨some jobQueued, []⟩

/-- Store holding a terminally failed job. -/
def stTerminalFailed : Store := ⟨some jobTerminalFailed, []⟩

/-- Store holding a completed job. -/
def stCompleted : Store := ⟨some jobCompleted, []⟩

/-- Store holding a once-failed job. -/
def stOneFailure : Store := ⟨some jobOneFailure, []⟩

/-- Store with no job row for the requested id. -/
def stMissing : Store := ⟨none, []⟩

/-- Terminally failed queue row whose stale `next_retry_at` (5) has elapsed. -/
def qjobTerminal : QJob := ⟨1, JStatus.failed, 0, some 5, 3, 3⟩

/-- Retry-eligible failed queue row with elapsed `next_retry_at` (8). -/
def qjobRetryable : QJob := ⟨2, JStatus.failed, 1, some 8, 1, 3⟩

/-- Queue in which a terminal failed row masks a retry-eligible one. -/
def qMasked : List QJob := [qjobTerminal, qjobRetryable]

/-- Two queued rows, the younger one listed first. -/
def qTwoQueued : List QJob := [⟨3, JStatus.queued, 9, none, 0, 3⟩, ⟨4, JStatus.queued, 4, none, 0, 3⟩]

/-! ## HuskLayer quality validator (`app/services/husk_layer.py`)

An RGB image is its dimensions together with a total pixel function; only
coordinates inside the image are ever read directly, and PIL's `crop`
zero-fills reads outside the image. -/

/-- An RGB image: dimensions and pixel channels `(r, g, b)`. -/
structure RGBImage where
  width : Nat
  height : Nat
  px : Nat → Nat → Nat × Nat × Nat

/-- Python `int(...)` applied to a non-negative float: truncation toward
zero, i.e. the floor on non-negative arguments. -/
def pyInt (q : Rat) : Int :=
  if q < 0 then -((-q).floor) else q.floor

/-- The even coordinates `0, 2, 4, ...` below `n` (the every-other-pixel
scan of `_find_content_bbox`). -/
def evenCoords (n : Nat) : List Nat :=
  (List.range ((n + 1) / 2)).map (fun i => 2 * i)

/-- A pixel counts as content when any channel is below the white
threshold 250. -/
def nonWhite (p : Nat × Nat × Nat) : Bool :=
  p.1 < 250 || p.2.1 < 250 || p.2.2 < 250

/-- The sampled coordinates (step 2 in both axes) holding content. -/
def contentPoints (img : RGBImage) : List (Nat × Nat) :=
  (evenCoords img.height).flatMap fun y =>
    (evenCoords img.width).filterMap fun x =>
      if nonWhite (img.px x y) then some (x, y) else none

/-- `HuskLayer._find_content_bbox`: min/max of the sampled content
coordinates, widened by the 2-pixel scan margin and clamped to the image;
`none` when no content is found. -/
def find_content_bbox (img : RGBImage) : Option (Nat × Nat × Nat × Nat) :=
  match contentPoints img with
  | [] => none
  | _ :: _ =>
      let pts := contentPoints img
      let xs := pts.map Prod.fst
      let ys := pts.map Prod.snd
      let minX := xs.foldr min img.width
      let minY := ys.foldr min img.height
      let maxX := xs.foldr max 0
      let maxY := ys.foldr max 0
      some (minX - 2, minY - 2, min img.width (maxX + 2), min img.height (maxY + 2))

/-- Result dict of `HuskLayer._check_centering` (raw measurements kept as
exact rationals). -/
structure CenteringResult where
  score : Int
  centerScore : Int
  coverageScore : Int
  maxOffset : Rat
  coverage : Rat
  noContent : Bool
deriving DecidableEq, Repr

/-- `HuskLayer._check_centering`: content bounding box, relative center
offset and coverage, 20-point centering sub-score plus 20-point coverage
sub-score. -/
def check_centering (img : RGBImage) : CenteringResult :=
  match find_content_bbox img with
  | none => ⟨0, 0, 0, 0, 0, true⟩
  | some (l, t, r, b) =>
      let w : Rat := (img.width : Rat)
      let h : Rat := (img.height : Rat)
      let contentW : Rat := (r : Rat) - (l : Rat)
      let contentH : Rat := (b : Rat) - (t : Rat)
      let contentCenterX : Rat := (l : Rat) + contentW / 2
      let contentCenterY : Rat := (t : Rat) + contentH / 2
      let offsetX : Rat := |contentCenterX - w / 2| / w
      let offsetY : Rat := |contentCenterY - h / 2| / h
      let maxOffset : Rat := max offsetX offsetY
      let coverage : Rat := max (contentW / w) (contentH / h)
      let centerScore : Int :=
        if maxOffset ≤ 15/100 then 20
        else pyInt (20 * (1 - min 1 (maxOffset / (5/10))))
      let coverageScore : Int :=
        if 75/100 ≤ coverage ∧ coverage ≤ 95/100 then 20
        else if coverage < 75/100 then pyInt (20 * (coverage / (75/100)))
        else pyInt (20 * (1 - min 1 ((coverage - 95/100) / (10/100))))
      ⟨centerScore + coverageScore, centerScore, coverageScore, maxOffset, coverage, false⟩

/-- `HuskLayer._check_resolution`: 30 points at `min(width, height) ≥ 1200`,
otherwise `int(30 * min_dim / 1200)`. -/
def check_resolution (img : RGBImage) : Int :=
  let minDim := min img.width img.height
  if minDim ≥ 1200 then 30
  else pyInt (30 * ((minDim : Rat) / 1200))

/-- Pixel read used by `crop`: coordinates outside the image read as black
(PIL zero-fills crops that extend past the borders). -/
def pxZ (img : RGBImage) (x y : Int) : Nat × Nat × Nat :=
  if 0 ≤ x ∧ x < (img.width : Int) ∧ 0 ≤ y ∧ y < (img.height : Int) then
    img.px x.toNat y.toNat
  else (0, 0, 0)

/-- Per-pixel mean distance from pure white:
`(|255-r| + |255-g| + |255-b|) / 3`. -/
def pixelDelta (p : Nat × Nat × Nat) : Rat :=
  (((255 - (p.1 : Int)).natAbs + (255 - (p.2.1 : Int)).natAbs
      + (255 - (p.2.2 : Int)).natAbs : Nat) : Rat) / 3

/-- `HuskLayer._calculate_rgb_delta` over the `s × s` crop whose top-left
corner is `(x0, y0)`: the mean of the per-pixel deltas. -/
def regionDelta (img : RGBImage) (x0 y0 : Int) (s : Nat) : Rat :=
  let pts := (List.range s).flatMap fun j => (List.range s).map fun i => (x0 + (i : Int), y0 + (j : Int))
  ((pts.map fun p => pixelDelta (pxZ img p.1 p.2)).sum) / ((pts.length : Rat))

/-- `HuskLayer._check_background_purity`: average the four corner-region
deltas; 30 points at `avg ≤ 5`, else `int(30 * (1 - min(1, avg/50)))`.
Returns `(score, avg_delta)`. -/
def check_background_purity (img : RGBImage) : Int × Rat :=
  let s := max 10 (min img.width img.height / 20)
  let d1 := regionDelta img 0 0 s
  let d2 := regionDelta img ((img.width : Int) - (s : Int)) 0 s
  let d3 := regionDelta img 0 ((img.height : Int) - (s : Int)) s
  let d4 := regionDelta img ((img.width : Int) - (s : Int)) ((img.height : Int) - (s : Int)) s
  let avg := (d1 + d2 + d3 + d4) / 4
  (if avg ≤ 5 then 30 else pyInt (30 * (1 - min 1 (avg / 50))), avg)

/-- `QualityReport` as produced by `HuskLayer.calculate_quality_score`,
with the three sub-scores kept for the `details` breakdown. -/
structure QualityReport where
  score : Int
  passed : Bool
  resolutionScore : Int
  centeringScore : Int
  backgroundScore : Int
deriving DecidableEq, Repr

/-- `HuskLayer.calculate_quality_score`: the sum of the three checks and
the `passed = score >= 80` flag. -/
def calculate_quality_score (img : RGBImage) : QualityReport :=
  let r := check_resolution img
  let c := (check_centering img).score
  let b := (check_background_purity img).1
  let total := r + c + b
  ⟨total, decide (80 ≤ total), r, c, b⟩

/-! ## Claim C5: the centering sub-score ramp -/

/-- The centering sub-score the spec's sentence describes on the open
interval `(0.15, 0.5)`: the line through `(0.15, 20)` and `(0.5, 0)`,
truncated to an integer like the code's sub-scores are. -/
def specCenterScoreLinear (o : Rat) : Int :=
  pyInt (20 * ((1/2 - o) / (1/2 - 15/100)))

/-- Claim C5 as stated: 20 up to offset 0.15, then degrading linearly from
20 at 0.15 down to 0 at 0.5, and 0 beyond. -/
def claimC5 : Prop :=
  ∀ img : RGBImage,
    (check_centering img).noContent = false →
    ((check_centering img).maxOffset ≤ 15/100 → (check_centering img).centerScore = 20) ∧
    (15/100 < (check_centering img).maxOffset → (check_centering img).maxOffset < 1/2 →
      (check_centering img).centerScore = specCenterScoreLinear (check_centering img).maxOffset) ∧
    (1/2 ≤ (check_centering img).maxOffset → (check_centering img).centerScore = 0)

/-- 20x20 test image: dark pixels at x in {4..7}, y in {8..11}, white
elsewhere.  Its sampled content box is `(2, 6, 8, 12)`, so the content
center is `(5, 9)` and the maximal relative offset is `1/4`. -/
def imgOffCenter : RGBImage :=
  ⟨20, 20, fun x y =>
    if 4 ≤ x ∧ x ≤ 7 ∧ 8 ≤ y ∧ y ≤ 11 then (0, 0, 0) else (255, 255, 255)⟩

/-! ## ImageComposer (`app/services/image_composer.py`)

RGBA images are dimensions, a PIL mode tag and a total pixel function
`(r, g, b, a)`.  PIL's resampling (`resize` with LANCZOS), Gaussian blur and
paste alpha-blending are pixel-level arithmetic the composition geometry
never depends on; they enter as parameters (`PixOps`) constrained by the
size/mode contracts (`ResizeContract`, `BlurContract`) that PIL documents
and the source relies on. -/

/-- The PIL modes distinguished by `compose_white_background`: `RGBA`
(has alpha), `RGB` (rejected), and `L` standing for the remaining
alpha-less modes which are converted via `convert('RGBA')`. -/
inductive PMode
  | RGB
  | RGBA
  | L
deriving DecidableEq, Repr

/-- An image: dimensions, mode and pixel channels `(r, g, b, a)`. -/
structure Img where
  width : Nat
  height : Nat
  mode : PMode
  px : Nat → Nat → Nat × Nat × Nat × Nat

/-- The pixel-arithmetic of PIL left abstract: `resize` to a requested
size, `GaussianBlur`, and the per-pixel blend `blend base src maskAlpha`
performed by `paste` with a mask. -/
structure PixOps where
  resize : Img → Nat → Nat → Img
  blur : Img → Img
  blend : (Nat × Nat × Nat × Nat) → (Nat × Nat × Nat × Nat) → Nat → Nat × Nat × Nat × Nat

/-- PIL contract for `resize` on positive requested sizes: the result has
the requested size and keeps the mode.  (A zero requested dimension makes
PIL raise `ValueError: height and width must be > 0` instead of returning;
`compose_core` models that raise explicitly before calling `resize`, so
the contract says nothing about zero sizes.) -/
def ResizeContract (resize : Img → Nat → Nat → Img) : Prop :=
  ∀ i w h, 0 < w → 0 < h →
    (resize i w h).width = w ∧ (resize i w h).height = h ∧ (resize i w h).mode = i.mode

/-- PIL contract for `filter(GaussianBlur)`: size and mode are kept. -/
def BlurContract (blur : Img → Img) : Prop :=
  ∀ i, (blur i).width = i.width ∧ (blur i).height = i.height ∧ (blur i).mode = i.mode

/-- `Image.convert('RGBA')` on an alpha-less mode: gray value replicated to
the channels, alpha fully opaque. -/
def convert_to_rgba (img : Img) : Img :=
  { img with mode := PMode.RGBA, px := fun x y => ((img.px x y).1, (img.px x y).1, (img.px x y).1, 255) }

/-- All pixel coordinates of a `w × h` image. -/
def allCoords (w h : Nat) : List (Nat × Nat) :=
  (List.range h).flatMap fun y => (List.range w).map fun x => (x, y)

/-- The coordinates whose alpha channel is non-zero. -/
def alphaPoints (img : Img) : List (Nat × Nat) :=
  (allCoords img.width img.height).filter fun p => decide ((img.px p.1 p.2).2.2.2 ≠ 0)

/-- `ImageComposer._get_content_bbox` on an RGBA image:
`alpha.getbbox()`, the tight box `(left, upper, right, lower)` (exclusive
right/lower) of the non-zero alpha region, `none` when fully transparent. -/
def get_content_bbox (img : Img) : Option (Nat × Nat × Nat × Nat) :=
  match alphaPoints img with
  | [] => none
  | ps =>
      let xs := ps.map Prod.fst
      let ys := ps.map Prod.snd
      some (xs.foldr min img.width, ys.foldr min img.height,
            xs.foldr max 0 + 1, ys.foldr max 0 + 1)

/-- `Image.crop(bbox)`: the `(r - l) × (b - t)` window at `(l, t)`. -/
def crop (img : Img) (l t r b : Nat) : Img :=
  ⟨r - l, b - t, img.mode, fun i j => img.px (l + i) (t + j)⟩

/-- `ImageComposer.PRODUCT_COVERAGE = 0.85`. -/
def PRODUCT_COVERAGE : Rat := 85/100

/-- `ImageComposer._calculate_scale`: uniform scale making the larger
cropped dimension occupy `PRODUCT_COVERAGE` of the frame. -/
def calculate_scale (productW productH targetSize : Nat) : Rat :=
  let available : Rat := (targetSize : Rat) * PRODUCT_COVERAGE
  min (available / (productW : Rat)) (available / (productH : Rat))

/-- Python `int()` of a non-negative float, as a natural number. -/
def natFloor (q : Rat) : Nat := q.floor.toNat

/-- A pure-white RGB canvas of side `t` (`Image.new('RGB', ..., white)`). -/
def whiteCanvas (t : Nat) : Img :=
  ⟨t, t, PMode.RGB, fun _ _ => (255, 255, 255, 255)⟩

/-- `base.paste(src, (x, y), mask)`: inside the pasted rectangle each pixel
is blended using the mask's alpha at that point; outside it the base is
untouched.  `mask` always has `src`'s size at the call sites. -/
def paste_mask (blend : (Nat × Nat × Nat × Nat) → (Nat × Nat × Nat × Nat) → Nat → Nat × Nat × Nat × Nat)
    (base src mask : Img) (x y : Nat) : Img :=
  ⟨base.width, base.height, base.mode, fun i j =>
    if x ≤ i ∧ i < x + src.width ∧ y ≤ j ∧ j < y + src.height then
      blend (base.px i j) (src.px (i - x) (j - y)) ((mask.px (i - x) (j - y)).2.2.2)
    else base.px i j⟩

/-- `ImageComposer.SHADOW_OPACITY = 40`, `SHADOW_BLUR = 15` (inside the
abstract blur), `SHADOW_OFFSET = (0, 10)`. -/
def SHADOW_OFFSET : Nat × Nat := (0, 10)

/-- `ImageComposer._create_shadow`: a transparent layer of the resized
product's size, the flat black opacity-40 layer pasted through the
product's alpha, then Gaussian-blurred. -/
def create_shadow (ops : PixOps) (product : Img) : Img :=
  let shadow : Img := ⟨product.width, product.height, PMode.RGBA, fun _ _ => (0, 0, 0, 0)⟩
  let shadowLayer : Img := ⟨product.width, product.height, PMode.RGBA, fun _ _ => (0, 0, 0, 40)⟩
  ops.blur (paste_mask ops.blend shadow shadowLayer product 0 0)

/-- The `ValueError` message Pillow raises from `Image.resize` when a
requested dimension is zero. -/
def msgSizePositive : String := "height and width must be > 0"

/-- Stages 1-8 of `compose_white_background` once the image is RGBA:
bounding box, crop, scale to 85% coverage, resize (raising Pillow's
`ValueError` when `int(dim * scale)` collapses to zero, as happens when
the cropped aspect ratio exceeds `0.85 * target`), white canvas, centered
paste position, shadow pasted at the `(0, 10)` offset, product pasted on
top. -/
def compose_core (ops : PixOps) (image : Img) (target : Nat) : Except String Img :=
  match get_content_bbox image with
  | none => .ok (whiteCanvas target)
  | some (l, t, r, b) =>
      let product := crop image l t r b
      let scale := calculate_scale product.width product.height target
      let newW := natFloor ((product.width : Rat) * scale)
      let newH := natFloor ((product.height : Rat) * scale)
      if newW = 0 ∨ newH = 0 then .error msgSizePositive
      else
        let productResized := ops.resize product newW newH
        let canvas := whiteCanvas target
        let pasteX := (target - newW) / 2
        let pasteY := (target - newH) / 2
        let shadow := create_shadow ops productResized
        let shadowX := pasteX + SHADOW_OFFSET.1
        let shadowY := pasteY + SHADOW_OFFSET.2
        let canvas2 := paste_mask ops.blend canvas shadow shadow shadowX shadowY
        .ok (paste_mask ops.blend canvas2 productResized productResized pasteX pasteY)

/-- The `ValueError` message for alpha-less RGB input. -/
def msgNoAlpha : String :=
  "Imagem nao possui transparencia. Use uma imagem PNG com canal alpha."

/-- `ImageComposer.compose_white_background`: default (and falsy-zero)
target size 1200; RGBA proceeds, RGB raises `ValueError`, any other mode is
converted to RGBA first. -/
def compose_white_background (ops : PixOps) (img : Img) (targetSize : Option Nat) :
    Except String Img :=
  let target := match targetSize with
    | some t => if t = 0 then 1200 else t
    | none => 1200
  if img.mode = PMode.RGBA then compose_core ops img target
  else if img.mode = PMode.RGB then .error msgNoAlpha
  else compose_core ops (convert_to_rgba img) target

/-! ## Claims about the composer, stated as the spec states them -/

/-- The four corner coordinates of a `t × t` canvas. -/
def cornerList (t : Nat) : List (Nat × Nat) :=
  [(0, 0), (t - 1, 0), (0, t - 1), (t - 1, t - 1)]

/-- "Within a small tolerance of (255,255,255)": every channel at least
250 (tolerance 5). -/
def nearWhitePx (p : Nat × Nat × Nat × Nat) : Prop :=
  250 ≤ p.1 ∧ 250 ≤ p.2.1 ∧ 250 ≤ p.2.2.1

/-- A fully transparent RGBA image: alpha 0 at every in-range coordinate. -/
def fullyTransparent (img : Img) : Prop :=
  ∀ x y, x < img.width → y < img.height → (img.px x y).2.2.2 = 0

/-- Claim C7 as stated: for every RGBA input and every target size `N`,
`compose` returns an `N × N` RGB image; when some pixel is non-transparent
all four corners are within a small tolerance of white, and a fully
transparent input yields the plain white canvas. -/
def claimC7 : Prop :=
  ∀ ops : PixOps, ResizeContract ops.resize → BlurContract ops.blur →
  ∀ (img : Img) (n : Nat), img.mode = PMode.RGBA → 0 < n →
  ∃ out, compose_white_background ops img (some n) = .ok out ∧
    out.width = n ∧ out.height = n ∧ out.mode = PMode.RGB ∧
    ((∃ x y, x < img.width ∧ y < img.height ∧ (img.px x y).2.2.2 ≠ 0) →
      ∀ c ∈ cornerList n, nearWhitePx (out.px c.1 c.2)) ∧
    (fullyTransparent img → out = whiteCanvas n)

/-- Claim C8 as stated: every alpha-less input (mode `RGB` or `L`) is
rejected with `ValueError`. -/
def claimC8 : Prop :=
  ∀ (ops : PixOps) (img : Img) (t : Option Nat),
    (img.mode = PMode.RGB ∨ img.mode = PMode.L) →
    ∃ e, compose_white_background ops img t = .error e

/-- Nearest-neighbour resampling: a concrete instance of
`ResizeContract`. -/
def resizeNearest (i : Img) (w h : Nat) : Img :=
  ⟨w, h, i.mode, fun x y => i.px (x * i.width / w) (y * i.height / h)⟩

/-- Concrete pixel arithmetic mirroring PIL at the mask values reached in
the counterexamples: a zero mask keeps the base, any other mask takes the
source (PIL copies `src` exactly where the mask alpha is 255); blur left
as the identity on pixel values. -/
def pixOpsSimple : PixOps :=
  ⟨resizeNearest, fun i => i, fun b s m => if m = 0 then b else s⟩

/-- A 1x1 RGBA image holding a single opaque black pixel. -/
def imgOnePixel : Img :=
  ⟨1, 1, PMode.RGBA, fun _ _ => (0, 0, 0, 255)⟩

/-- A 1x1 grayscale (`L`) image: black, no alpha channel. -/
def imgGrayL : Img :=
  ⟨1, 1, PMode.L, fun _ _ => (0, 0, 0, 0)⟩

/-- A 3x3 fully transparent RGBA image. -/
def imgTransparent : Img :=
  ⟨3, 3, PMode.RGBA, fun _ _ => (0, 0, 0, 0)⟩

/-! ## Helper lemmas: folds and `minByKey` -/

theorem foldr_min_le_of_mem {l : List Nat} {a x : Nat} (hx : x ∈ l) :
    l.foldr min a ≤ x := by
  induction l with
  | nil => cases hx
  | cons y ys ih =>
      rcases List.mem_cons.1 hx with h | h
      · subst h; exact min_le_left _ _
      · exact le_trans (min_le_right _ _) (ih h)

theorem le_foldr_max_of_mem {l : List Nat} {a x : Nat} (hx : x ∈ l) :
    x ≤ l.foldr max a := by
  induction l with
  | nil => cases hx
  | cons y ys ih =>
      rcases List.mem_cons.1 hx with h | h
      · subst h; exact le_max_left _ _
      · exact le_trans (ih h) (le_max_right _ _)

theorem minByKey_eq_none {key : QJob → Nat} : ∀ {l : List QJob},
    minByKey key l = none ↔ l = [] := by
  intro l
  cases l with
  | nil => simp [minByKey]
  | cons a as =>
      simp only [minByKey]
      constructor
      · intro h
        rcases hm : minByKey key as with _ | k <;> rw [hm] at h <;> dsimp only at h
        · cases h
        · by_cases hk : key a ≤ key k
          · rw [if_pos hk] at h; cases h
          · rw [if_neg hk] at h; cases h
      · intro h; cases h

theorem minByKey_mem {key : QJob → Nat} : ∀ {l : List QJob} {j : QJob},
    minByKey key l = some j → j ∈ l := by
  intro l
  induction l with
  | nil => intro j h; cases h
  | cons a as ih =>
      intro j h
      unfold minByKey at h
      rcases hm : minByKey key as with _ | k <;> rw [hm] at h <;> dsimp only at h
      · cases h; exact List.mem_cons_self _ _
      · by_cases hk : key a ≤ key k
        · rw [if_pos hk] at h; cases h; exact List.mem_cons_self _ _
        · rw [if_neg hk] at h; cases h; exact List.mem_cons_of_mem _ (ih hm)

theorem minByKey_le {key : QJob → Nat} : ∀ {l : List QJob} {j : QJob},
    minByKey key l = some j → ∀ x ∈ l, key j ≤ key x := by
  intro l
  induction l with
  | nil => intro j h; cases h
  | cons a as ih =>
      intro j h x hx
      unfold minByKey at h
      rcases hm : minByKey key as with _ | k <;> rw [hm] at h <;> dsimp only at h
      · cases h
        rcases List.mem_cons.1 hx with h | h
        · subst h; exact le_refl _
        · rw [minByKey_eq_none.1 hm] at h; cases h
      · by_cases hk : key a ≤ key k
        · rw [if_pos hk] at h; cases h
          rcases List.mem_cons.1 hx with h | h
          · subst h; exact le_refl _
          · exact le_trans hk (ih hm x h)
        · rw [if_neg hk] at h; cases h
          rcases List.mem_cons.1 hx with h | h
          · subst h; exact le_of_not_le hk
          · exact ih hm x h

/-! ## Characterization of `get_next_queued_job` -/

theorem get_next_sound {jobs : List QJob} {now : Nat} {j : QJob}
    (h : get_next_queued_job jobs now = some j) :
    j ∈ jobs ∧ (j.status = JStatus.queued ∨
      (retryElapsed now j = true ∧ j.attempts < j.maxAttempts)) := by
  unfold get_next_queued_job at h
  rcases h1 : minByKey QJob.createdAt (jobs.filter fun j => decide (j.status = JStatus.queued))
    with _ | k
  · rw [h1] at h; dsimp only at h
    rcases h2 : minByKey (fun j => j.nextRetryAt.getD 0) (jobs.filter (retryElapsed now))
      with _ | k
    · rw [h2] at h; cases h
    · rw [h2] at h; dsimp only at h
      by_cases ha : k.attempts < k.maxAttempts
      · rw [if_pos ha] at h; cases h
        have hk := minByKey_mem h2
        have := List.mem_filter.1 hk
        exact ⟨this.1, Or.inr ⟨this.2, ha⟩⟩
      · rw [if_neg ha] at h; cases h
  · rw [h1] at h; dsimp only at h; cases h
    have hk := minByKey_mem h1
    have := List.mem_filter.1 hk
    exact ⟨this.1, Or.inl (of_decide_eq_true this.2)⟩

theorem get_next_queued_minimal {jobs : List QJob} {now : Nat} {j : QJob}
    (h : get_next_queued_job jobs now = some j) (hq : j.status = JStatus.queued) :
    ∀ k ∈ jobs, k.status = JStatus.queued → j.createdAt ≤ k.createdAt := by
  intro k hk hkq
  unfold get_next_queued_job at h
  rcases h1 : minByKey QJob.createdAt (jobs.filter fun j => decide (j.status = JStatus.queued))
    with _ | m
  · rw [h1] at h; dsimp only at h
    rcases h2 : minByKey (fun j => j.nextRetryAt.getD 0) (jobs.filter (retryElapsed now))
      with _ | m
    · rw [h2] at h; cases h
    · rw [h2] at h; dsimp only at h
      by_cases ha : m.attempts < m.maxAttempts
      · rw [if_pos ha] at h; cases h
        have := (List.mem_filter.1 (minByKey_mem h2)).2
        unfold retryElapsed at this
        have hst : j.status = JStatus.failed := of_decide_eq_true (Bool.and_elim_left this)
        rw [hq] at hst; cases hst
      · rw [if_neg ha] at h; cases h
  · rw [h1] at h; dsimp only at h; cases h
    exact minByKey_le h1 k (List.mem_filter.2 ⟨hk, decide_eq_true hkq⟩)

theorem get_next_queued_complete {jobs : List QJob} {now : Nat} {q : QJob}
    (hq : q ∈ jobs) (hqs : q.status = JStatus.queued) :
    ∃ j, get_next_queued_job jobs now = some j ∧ j.status = JStatus.queued := by
  have hqf : q ∈ jobs.filter fun j => decide (j.status = JStatus.queued) :=
    List.mem_filter.2 ⟨hq, decide_eq_true hqs⟩
  rcases h1 : minByKey QJob.createdAt (jobs.filter fun j => decide (j.status = JStatus.queued))
    with _ | m
  · rw [minByKey_eq_none.1 h1] at hqf; cases hqf
  · refine ⟨m, ?_, ?_⟩
    · unfold get_next_queued_job
      rw [h1]
    · exact of_decide_eq_true (List.mem_filter.1 (minByKey_mem h1)).2

theorem get_next_failed_minimal {jobs : List QJob} {now : Nat} {j : QJob}
    (h : get_next_queued_job jobs now = some j) (hf : j.status = JStatus.failed) :
    (∀ k ∈ jobs, k.status ≠ JStatus.queued) ∧
      (∀ k ∈ jobs, retryElapsed now k = true →
        j.nextRetryAt.getD 0 ≤ k.nextRetryAt.getD 0) := by
  unfold get_next_queued_job at h
  rcases h1 : minByKey QJob.createdAt (jobs.filter fun j => decide (j.status = JStatus.queued))
    with _ | m
  · rw [h1] at h; dsimp only at h
    rcases h2 : minByKey (fun j => j.nextRetryAt.getD 0) (jobs.filter (retryElapsed now))
      with _ | m
    · rw [h2] at h; cases h
    · rw [h2] at h; dsimp only at h
      by_cases ha : m.attempts < m.maxAttempts
      · rw [if_pos ha] at h; cases h
        constructor
        · intro k hk hkq
          have : k ∈ jobs.filter fun j => decide (j.status = JStatus.queued) :=
            List.mem_filter.2 ⟨hk, decide_eq_true hkq⟩
          rw [minByKey_eq_none.1 h1] at this; cases this
        · intro k hk hke
          exact minByKey_le h2 k (List.mem_filter.2 ⟨hk, hke⟩)
      · rw [if_neg ha] at h; cases h
  · rw [h1] at h; dsimp only at h; cases h
    have := of_decide_eq_true (List.mem_filter.1 (minByKey_mem h1)).2
    rw [hf] at this; cases this

theorem get_next_none_complete {jobs : List QJob} {now : Nat}
    (hq : ∀ k ∈ jobs, k.status ≠ JStatus.queued)
    (he : ∀ k ∈ jobs, retryElapsed now k = false) :
    get_next_queued_job jobs now = none := by
  have h1 : jobs.filter (fun j => decide (j.status = JStatus.queued)) = [] := by
    rw [List.filter_eq_nil_iff]
    intro k hk
    simp only [decide_eq_true_eq]
    exact hq k hk
  have h2 : jobs.filter (retryElapsed now) = [] := by
    rw [List.filter_eq_nil_iff]
    intro k hk
    rw [he k hk]
    exact Bool.false_ne_true
  unfold get_next_queued_job
  rw [h1, h2]
  rfl

theorem retryElapsed_spec {now : Nat} {j : QJob} (h : retryElapsed now j = true) :
    j.status = JStatus.failed ∧ ∃ t, j.nextRetryAt = some t ∧ t ≤ now := by
  unfold retryElapsed at h
  have h1 := Bool.and_elim_left h
  have h2 := Bool.and_elim_right h
  refine ⟨of_decide_eq_true h1, ?_⟩
  rcases ht : j.nextRetryAt with _ | t
  · rw [ht] at h2; cases h2
  · rw [ht] at h2; exact ⟨t, rfl, of_decide_eq_true h2⟩

/-- Claim C2 (amended): `get_next_queued_job` returns only rows of the
store -- a minimal-`created_at` `queued` row whenever any `queued` row
exists, and otherwise a `failed` row with minimal elapsed `next_retry_at`
which additionally satisfies `attempts < max_attempts`; it returns `none`
when there is no `queued` row and no `failed` row with elapsed
`next_retry_at`.  (The failed fallback is chosen by `next_retry_at`, not by
age, and is checked for remaining attempts only after selection, so a
terminal failed row can mask a retry-eligible one; that masking is what
the recorded counterexample exhibits.) -/
theorem next_eligible_job_spec (jobs : List QJob) (now : Nat) :
    (∀ j, get_next_queued_job jobs now = some j →
      j ∈ jobs ∧ (j.status = JStatus.queued ∨ eligibleFailed now j)) ∧
    (∀ j, get_next_queued_job jobs now = some j → j.status = JStatus.queued →
      ∀ k ∈ jobs, k.status = JStatus.queued → j.createdAt ≤ k.createdAt) ∧
    (∀ q ∈ jobs, q.status = JStatus.queued →
      ∃ j, get_next_queued_job jobs now = some j ∧ j.status = JStatus.queued) ∧
    (∀ j, get_next_queued_job jobs now = some j → j.status = JStatus.failed →
      (∀ k ∈ jobs, k.status ≠ JStatus.queued) ∧
        ∀ k ∈ jobs, retryElapsed now k = true →
          j.nextRetryAt.getD 0 ≤ k.nextRetryAt.getD 0) ∧
    ((∀ k ∈ jobs, k.status ≠ JStatus.queued) →
      (∀ k ∈ jobs, retryElapsed now k = false) →
      get_next_queued_job jobs now = none) := by
  refine ⟨?_, ?_, ?_, ?_, ?_⟩
  · intro j h
    rcases get_next_sound h with ⟨hm, hq | ⟨he, ha⟩⟩
    · exact ⟨hm, Or.inl hq⟩
    · rcases retryElapsed_spec he with ⟨hs, ht⟩
      exact ⟨hm, Or.inr ⟨hs, ht, ha⟩⟩
  · intro j h hq
    exact get_next_queued_minimal h hq
  · intro q hq hqs
    exact get_next_queued_complete hq hqs
  · intro j h hf
    exact get_next_failed_minimal h hf
  · intro h1 h2
    exact get_next_none_complete h1 h2

/-- Witness for the amended C2 theorem: on a store holding two `queued`
rows the query returns the older one (`created_at = 4`). -/
theorem next_eligible_job_spec_witness :
    ∃ j, get_next_queued_job qTwoQueued 10 = some j ∧ j.status = JStatus.queued :=
  (next_eligible_job_spec qTwoQueued 10).2.2.1 ⟨3, JStatus.queued, 9, none, 0, 3⟩
    (by simp [qTwoQueued]) rfl

/-- Counterexample to claim C2 as stated: in `qMasked` the terminal failed
row (`next_retry_at = 5`, `attempts = 3 = max_attempts`) is selected first
by `next_retry_at`, fails the attempts check, and makes the query return
`none` even though the retry-eligible row (`next_retry_at = 8`,
`attempts = 1`) is waiting. -/
theorem terminal_row_masks_retryable : ¬ claimC2 := by
  intro h
  have hnone : get_next_queued_job qMasked 10 = none := by decide
  have hnoq : ¬ ∃ j ∈ qMasked, j.status = JStatus.queued := by decide
  obtain ⟨j, hj, -, -⟩ := (h qMasked 10).2.1 hnoq
    ⟨qjobRetryable, by simp [qMasked], rfl, ⟨8, rfl, by decide⟩, by decide⟩
  rw [hnone] at hj
  cases hj

/-! ## Characterization of `_handle_failure` and the pipeline run -/

theorem retry_delay_ne_zero (a : Nat) :
    RETRY_DELAYS.getD (min a (RETRY_DELAYS.length - 1)) 2 ≠ 0 := by
  have h2 : min a (RETRY_DELAYS.length - 1) = 0 ∨ min a (RETRY_DELAYS.length - 1) = 1 ∨
      min a (RETRY_DELAYS.length - 1) = 2 := by
    simp only [RETRY_DELAYS, List.length]
    omega
  rcases h2 with h | h | h <;> rw [h] <;> decide

theorem handle_failure_spec (env : WorkerEnv) (st : Store) (e : String) (jobIn : JobRec)
    (h : st.job = some jobIn) :
    (handle_failure env st e).1 = false ∧
    ∃ j', (handle_failure env st e).2.job = some j' ∧ j'.status = JStatus.failed ∧
      (jobIn.attempts + 1 < jobIn.maxAttempts →
        j'.attempts = jobIn.attempts + 1 ∧
        j'.nextRetryAt =
          some (env.now + RETRY_DELAYS.getD (min jobIn.attempts (RETRY_DELAYS.length - 1)) 2)) ∧
      (¬ jobIn.attempts + 1 < jobIn.maxAttempts → j'.attempts = jobIn.maxAttempts) := by
  unfold handle_failure get_retry_delay increment_job_attempt
  rw [h]
  dsimp only
  by_cases hr : jobIn.attempts + 1 < jobIn.maxAttempts
  · rw [if_pos (by simpa using hr)]
    refine ⟨rfl, ?_⟩
    refine ⟨_, rfl, rfl, fun _ => ⟨rfl, ?_⟩, fun hc => absurd hr hc⟩
    rw [if_pos ⟨by simpa using hr, retry_delay_ne_zero jobIn.attempts⟩]
  · rw [if_neg (by simpa using hr)]
    unfold fail_job
    dsimp only
    refine ⟨rfl, ?_⟩
    exact ⟨_, rfl, rfl, fun hc => absurd hc hr, fun _ => rfl⟩

theorem run_pipeline_spec (env : WorkerEnv) (st : Store) (job jobIn : JobRec)
    (h : st.job = some jobIn) :
    ((run_pipeline env st job).2 = none ↔ pipeline_core_raised env job = false) ∧
    ∃ j2, (run_pipeline env st job).1.job = some j2 ∧
      j2.attempts = jobIn.attempts ∧ j2.maxAttempts = jobIn.maxAttempts ∧
      ((run_pipeline env st job).2 = none → j2.status = JStatus.completed) ∧
      ((run_pipeline env st job).2 ≠ none → j2.status = jobIn.status) := by
  obtain ⟨now, d, sg, cp, vd, us, up, rs, rp⟩ := env
  cases hop : job.hasOrigPath <;> cases d <;> cases sg <;> cases cp <;> cases vd <;>
    cases us <;> cases up <;>
    simp_all [run_pipeline, pipeline_core_raised, update_job_progress, record_upload, complete_job]

theorem process_job_accepted (env : WorkerEnv) (st : Store) (job : JobRec)
    (h : st.job = some job) (hacc : job.status = JStatus.queued ∨ job.status = JStatus.failed) :
    ∃ st1 job1, process_job env st =
        (match run_pipeline env st1 job with
         | (st2, none) => (true, st2)
         | (st2, some e) => handle_failure env st2 e) ∧
      st1.job = some job1 ∧ job1.attempts = job.attempts ∧
      job1.maxAttempts = job.maxAttempts ∧ job1.status = JStatus.processing := by
  unfold process_job
  rw [h]
  dsimp only
  rw [if_pos hacc]
  refine ⟨_, { job with status := JStatus.processing, currentStep := "downloading", progress := 5 }, rfl, ?_, rfl, rfl, rfl⟩
  simp [update_job_progress, h]

/-- Claim C1 (amended): exceptions in the download, segmentation,
composition, validation and storage-upload stages are routed to
`_handle_failure` -- `process_job` then returns `False` and the job ends the
attempt `failed`, never `completed` and never stuck in `processing`; it
returns `True` with the job `completed` exactly when none of those stages
raised.  Exceptions of the stage-6 `create_image` registrations are the
exception: they are caught locally and do not prevent completion (that gap
is the recorded counterexample to the claim as stated). -/
theorem process_job_exception_routing (env : WorkerEnv) (st : Store) (job : JobRec)
    (h : st.job = some job)
    (hacc : job.status = JStatus.queued ∨ job.status = JStatus.failed) :
    ((process_job env st).1 = true ↔ pipeline_core_raised env job = false) ∧
    ∃ j', (process_job env st).2.job = some j' ∧
      (pipeline_core_raised env job = true → j'.status = JStatus.failed) ∧
      (pipeline_core_raised env job = false → j'.status = JStatus.completed) := by
  obtain ⟨st1, job1, hpe, hst1, hA, hM, hS⟩ := process_job_accepted env st job h hacc
  obtain ⟨hiff, j2, hj2, hA2, hM2, hcomp, herr⟩ := run_pipeline_spec env st1 job job1 hst1
  rcases hrp : run_pipeline env st1 job with ⟨st2, r⟩
  rw [hrp] at hpe hiff hj2 hcomp herr
  rcases r with _ | e
  · have hcore : pipeline_core_raised env job = false := hiff.1 rfl
    rw [hpe]
    dsimp only
    refine ⟨by simp [hcore], j2, hj2, ?_, fun _ => hcomp rfl⟩
    intro hc; rw [hcore] at hc; cases hc
  · have hcore : pipeline_core_raised env job = true := by
      rcases Bool.eq_false_or_eq_true (pipeline_core_raised env job) with ht | hf
      · exact ht
      · exact absurd (hiff.2 hf) (by simp)
    rw [hpe]
    dsimp only
    obtain ⟨hb, j', hj', hfail, _, _⟩ := handle_failure_spec env st2 e j2 hj2
    refine ⟨?_, j', hj', fun _ => hfail, ?_⟩
    · rw [hb, hcore]
      simp
    · intro hc; rw [hcore] at hc; cases hc

/-- Witness for the amended C1 theorem, on a queued job whose segmentation
stage raises: `process_job` reports failure and the job ends `failed`. -/
theorem process_job_exception_routing_witness :
    stQueued.job = some jobQueued ∧
    (jobQueued.status = JStatus.queued ∨ jobQueued.status = JStatus.failed) ∧
    (((process_job envSegmentFails stQueued).1 = true ↔
        pipeline_core_raised envSegmentFails jobQueued = false) ∧
      ∃ j', (process_job envSegmentFails stQueued).2.job = some j' ∧
        (pipeline_core_raised envSegmentFails jobQueued = true → j'.status = JStatus.failed) ∧
        (pipeline_core_raised envSegmentFails jobQueued = false → j'.status = JStatus.completed)) :=
  ⟨rfl, Or.inl rfl,
    process_job_exception_routing envSegmentFails stQueued jobQueued rfl (Or.inl rfl)⟩

/-- Counterexample to claim C1 as stated: with every stage succeeding except
the stage-6 `create_image` registration of the segmented variant (which
raises), `process_job` still returns `True` and the job is reported
`completed` -- the raised exception was not routed to the failure handler. -/
theorem register_exception_not_routed : ¬ claimC1 := by
  intro h
  have hc := h envRegisterFails stQueued jobQueued rfl (Or.inl rfl) (by decide)
  have ht : (process_job envRegisterFails stQueued).1 = true := by decide
  exact Bool.noConfusion (ht.symm.trans hc.1)

/-- Claim C4: when an attempt on a job with `attempts = N - 1` fails and
retries remain, the worker writes
`next_retry_at = now + RETRY_DELAYS[min(N - 1, len - 1)]` -- the fixed
`[2, 4, 8]` sequence indexed by the attempt count read before the
increment, clamped to the last element -- and the job becomes `failed`
with `attempts = N`. -/
theorem retry_backoff_indexed (env : WorkerEnv) (st : Store) (job : JobRec)
    (h : st.job = some job)
    (hacc : job.status = JStatus.queued ∨ job.status = JStatus.failed)
    (hraise : pipeline_core_raised env job = true)
    (hretry : job.attempts + 1 < job.maxAttempts) :
    ∃ j', (process_job env st).2.job = some j' ∧ j'.status = JStatus.failed ∧
      j'.attempts = job.attempts + 1 ∧
      j'.nextRetryAt =
        some (env.now + RETRY_DELAYS.getD (min job.attempts (RETRY_DELAYS.length - 1)) 2) := by
  obtain ⟨st1, job1, hpe, hst1, hA, hM, hS⟩ := process_job_accepted env st job h hacc
  obtain ⟨hiff, j2, hj2, hA2, hM2, hcomp, herr⟩ := run_pipeline_spec env st1 job job1 hst1
  rcases hrp : run_pipeline env st1 job with ⟨st2, r⟩
  rw [hrp] at hpe hiff hj2 hcomp herr
  rcases r with _ | e
  · rw [hiff.1 rfl] at hraise; cases hraise
  · rw [hpe]
    dsimp only
    obtain ⟨hb, j', hj', hfail, hret, hterm⟩ := handle_failure_spec env st2 e j2 hj2
    have hr2 : j2.attempts + 1 < j2.maxAttempts := by rw [hA2, hA, hM2, hM]; exact hretry
    obtain ⟨ha', hn'⟩ := hret hr2
    exact ⟨j', hj', hfail, by rw [ha', hA2, hA], by rw [hn', hA2, hA]⟩

/-- Witness for C4, third conjunct discharged on a job with one recorded
failure (`attempts = 1`): the written delay is `RETRY_DELAYS[1] = 4`. -/
theorem retry_backoff_indexed_witness :
    stOneFailure.job = some jobOneFailure ∧
    (jobOneFailure.status = JStatus.queued ∨ jobOneFailure.status = JStatus.failed) ∧
    pipeline_core_raised envSegmentFails jobOneFailure = true ∧
    jobOneFailure.attempts + 1 < jobOneFailure.maxAttempts ∧
    ∃ j', (process_job envSegmentFails stOneFailure).2.job = some j' ∧
      j'.status = JStatus.failed ∧ j'.attempts = jobOneFailure.attempts + 1 ∧
      j'.nextRetryAt =
        some (envSegmentFails.now +
          RETRY_DELAYS.getD (min jobOneFailure.attempts (RETRY_DELAYS.length - 1)) 2) :=
  ⟨rfl, Or.inr rfl, by decide, by decide,
    retry_backoff_indexed envSegmentFails stOneFailure jobOneFailure rfl (Or.inr rfl)
      (by decide) (by decide)⟩

/-- Claim C3 (amended): (a) a third failure of a job with
`attempts = 2, max_attempts = 3` leaves it `failed` with `attempts = 3`;
(b) `get_next_queued_job` never returns a `completed` row nor a `failed`
row whose attempts are exhausted, so such a job is never dequeued again;
(c) `process_job` on a `completed` job returns `False` without any
mutation -- `completed` is terminal.  (`process_job` itself accepts any
`failed` row regardless of its attempt count, which is the recorded
counterexample to the claim as stated.) -/
theorem terminal_states_spec :
    (∀ (env : WorkerEnv) (st : Store) (job : JobRec),
      st.job = some job →
      (job.status = JStatus.queued ∨ job.status = JStatus.failed) →
      pipeline_core_raised env job = true →
      job.attempts = 2 → job.maxAttempts = 3 →
      ∃ j', (process_job env st).2.job = some j' ∧
        j'.status = JStatus.failed ∧ j'.attempts = 3) ∧
    (∀ (jobs : List QJob) (now : Nat) (j : QJob),
      get_next_queued_job jobs now = some j →
      j.status ≠ JStatus.completed ∧
        (j.status = JStatus.failed → j.attempts < j.maxAttempts)) ∧
    (∀ (env : WorkerEnv) (st : Store) (j : JobRec),
      st.job = some j → j.status = JStatus.completed →
      process_job env st = (false, st)) := by
  refine ⟨?_, ?_, ?_⟩
  · intro env st job h hacc hraise ha2 hm3
    obtain ⟨st1, job1, hpe, hst1, hA, hM, hS⟩ := process_job_accepted env st job h hacc
    obtain ⟨hiff, j2, hj2, hA2, hM2, hcomp, herr⟩ := run_pipeline_spec env st1 job job1 hst1
    rcases hrp : run_pipeline env st1 job with ⟨st2, r⟩
    rw [hrp] at hpe hiff hj2 hcomp herr
    rcases r with _ | e
    · rw [hiff.1 rfl] at hraise; cases hraise
    · rw [hpe]
      dsimp only
      obtain ⟨hb, j', hj', hfail, hret, hterm⟩ := handle_failure_spec env st2 e j2 hj2
      have hnr : ¬ j2.attempts + 1 < j2.maxAttempts := by
        rw [hA2, hA, hM2, hM, ha2, hm3]; omega
      refine ⟨j', hj', hfail, ?_⟩
      rw [hterm hnr, hM2, hM, hm3]
  · intro jobs now j h
    rcases get_next_sound h with ⟨-, hq | ⟨he, ha⟩⟩
    · constructor
      · rw [hq]; intro hc; cases hc
      · intro hf; rw [hq] at hf; cases hf
    · rcases retryElapsed_spec he with ⟨hs, -⟩
      constructor
      · rw [hs]; intro hc; cases hc
      · intro _; exact ha
  · intro env st j h hc
    unfold process_job
    rw [h]
    dsimp only
    rw [if_neg]
    rw [hc]
    rintro (hx | hx) <;> cases hx

/-- Witness for the amended C3 theorem, third conjunct: `process_job` on a
`completed` job mutates nothing and reports `False`. -/
theorem terminal_states_spec_witness :
    stCompleted.job = some jobCompleted ∧ jobCompleted.status = JStatus.completed ∧
    process_job envAllOk stCompleted = (false, stCompleted) :=
  ⟨rfl, rfl, terminal_states_spec.2.2 envAllOk stCompleted jobCompleted rfl rfl⟩

/-- Counterexample to claim C3 as stated: `process_job` accepts a job whose
status is `failed` even when `attempts = max_attempts = 3`, so a direct
call on a terminal failed job moves it to `completed` -- terminal `failed`
is not closed under the core's own operations. -/
theorem terminal_failed_reprocessed : ¬ claimC3 := by
  intro h
  have hc := h.2.2 envAllOk stTerminalFailed jobTerminalFailed rfl (Or.inr ⟨rfl, rfl⟩)
  have hv : (process_job envAllOk stTerminalFailed).2.job.map JobRec.status =
      some JStatus.completed := by decide
  rw [hv] at hc
  exact JStatus.noConfusion (Option.some.inj hc)

/-- Claim C10: when no job row exists for the requested id, `process_job`
returns `False` and the store -- job rows and uploads alike -- is
untouched. -/
theorem process_job_missing_row (env : WorkerEnv) (st : Store) (h : st.job = none) :
    process_job env st = (false, st) := by
  unfold process_job
  rw [h]

/-- Witness for C10 at the empty store. -/
theorem process_job_missing_row_witness :
    stMissing.job = none ∧ process_job envAllOk stMissing = (false, stMissing) :=
  ⟨rfl, process_job_missing_row envAllOk stMissing rfl⟩

/-! ## Bounds on the HuskLayer sub-scores -/

theorem rat_floor_eq_int_floor (q : Rat) : q.floor = ⌊q⌋ := rfl

theorem pyInt_eq_floor {q : Rat} (h : 0 ≤ q) : pyInt q = ⌊q⌋ := by
  unfold pyInt
  rw [if_neg (not_lt.2 h)]
  exact rat_floor_eq_int_floor q

theorem pyInt_nonneg {q : Rat} (h : 0 ≤ q) : 0 ≤ pyInt q := by
  rw [pyInt_eq_floor h]
  exact Int.floor_nonneg.2 h

theorem pyInt_le {q : Rat} {n : Int} (h0 : 0 ≤ q) (h : q ≤ (n : Rat)) : pyInt q ≤ n := by
  rw [pyInt_eq_floor h0]
  exact (Int.floor_le_floor h).trans_eq (Int.floor_intCast n)

theorem pyInt_lt {q : Rat} {n : Int} (h0 : 0 ≤ q) (h : q < (n : Rat)) : pyInt q < n := by
  rw [pyInt_eq_floor h0]
  exact Int.floor_lt.2 h

theorem min_one_mem_unit {x : Rat} (h : 0 ≤ x) : 0 ≤ min 1 x ∧ min 1 x ≤ 1 :=
  ⟨le_min (by norm_num) h, min_le_left _ _⟩

theorem ramp_score_bounds (c : Int) (hc : 0 ≤ c) {x : Rat} (h : 0 ≤ x) :
    0 ≤ pyInt ((c : Rat) * (1 - min 1 x)) ∧ pyInt ((c : Rat) * (1 - min 1 x)) ≤ c := by
  obtain ⟨h0, h1⟩ := min_one_mem_unit h
  have hc' : (0 : Rat) ≤ (c : Rat) := by exact_mod_cast hc
  constructor
  · exact pyInt_nonneg (mul_nonneg hc' (by linarith))
  · exact pyInt_le (mul_nonneg hc' (by linarith)) (by nlinarith)

theorem check_resolution_bounds (img : RGBImage) :
    0 ≤ check_resolution img ∧ check_resolution img ≤ 30 := by
  unfold check_resolution
  by_cases h : min img.width img.height ≥ 1200
  · rw [if_pos h]; exact ⟨by norm_num, le_refl _⟩
  · rw [if_neg h]
    have hm : (min img.width img.height : Rat) < 1200 := by
      have : min img.width img.height < 1200 := not_le.1 h
      exact_mod_cast this
    have h0 : (0 : Rat) ≤ (min img.width img.height : Rat) / 1200 := by positivity
    constructor
    · exact pyInt_nonneg (by positivity)
    · refine pyInt_le (by positivity) ?_
      have hm' : ((min img.width img.height : Nat) : Rat) ≤ 1200 :=
        le_of_lt (by exact_mod_cast not_le.1 h)
      have hdiv : ((min img.width img.height : Nat) : Rat) / 1200 ≤ 1 := by
        rw [div_le_one (by norm_num)]; exact hm'
      have := mul_le_mul_of_nonneg_left hdiv (by norm_num : (0 : Rat) ≤ 30)
      push_cast at this ⊢
      linarith

theorem evenCoords_lt {n x : Nat} (h : x ∈ evenCoords n) : x < n := by
  unfold evenCoords at h
  rcases List.mem_map.1 h with ⟨i, hi, rfl⟩
  have := List.mem_range.1 hi
  omega

theorem contentPoints_mem {img : RGBImage} {p : Nat × Nat} (h : p ∈ contentPoints img) :
    p.1 < img.width ∧ p.2 < img.height := by
  unfold contentPoints at h
  rcases List.mem_flatMap.1 h with ⟨y, hy, hp⟩
  rcases List.mem_filterMap.1 hp with ⟨x, hx, hfx⟩
  by_cases hw : nonWhite (img.px x y) = true
  · rw [if_pos hw] at hfx
    cases hfx
    exact ⟨evenCoords_lt hx, evenCoords_lt hy⟩
  · rw [if_neg hw] at hfx
    cases hfx

theorem find_content_bbox_le {img : RGBImage} {l t r b : Nat}
    (h : find_content_bbox img = some (l, t, r, b)) :
    l < r ∧ t < b ∧ r ≤ img.width ∧ b ≤ img.height := by
  unfold find_content_bbox at h
  rcases hc : contentPoints img with _ | ⟨p, ps⟩
  · rw [hc] at h; cases h
  · rw [hc] at h
    dsimp only at h
    rw [← hc] at h
    cases h
    have hp : p ∈ contentPoints img := by rw [hc]; exact List.mem_cons_self _ _
    have hx1 : p.1 ∈ (contentPoints img).map Prod.fst := List.mem_map_of_mem _ hp
    have hy1 : p.2 ∈ (contentPoints img).map Prod.snd := List.mem_map_of_mem _ hp
    have hminx := foldr_min_le_of_mem (a := img.width) hx1
    have hmaxx := le_foldr_max_of_mem (a := 0) hx1
    have hminy := foldr_min_le_of_mem (a := img.height) hy1
    have hmaxy := le_foldr_max_of_mem (a := 0) hy1
    have hpx := (contentPoints_mem hp).1
    have hpy := (contentPoints_mem hp).2
    refine ⟨?_, ?_, ?_, ?_⟩ <;> omega

theorem center_score_cases (o : Rat) (ho : 0 ≤ o) :
    0 ≤ (if o ≤ 15/100 then (20 : Int) else pyInt (20 * (1 - min 1 (o / (5/10))))) ∧
    (if o ≤ 15/100 then (20 : Int) else pyInt (20 * (1 - min 1 (o / (5/10))))) ≤ 20 := by
  split_ifs with h1
  · exact ⟨by norm_num, le_refl _⟩
  · have := ramp_score_bounds 20 (by norm_num) (div_nonneg ho (by norm_num : (0:Rat) ≤ 5/10))
    exact_mod_cast this

theorem coverage_score_cases (c : Rat) (hc : 0 ≤ c) :
    0 ≤ (if 75/100 ≤ c ∧ c ≤ 95/100 then (20 : Int)
      else if c < 75/100 then pyInt (20 * (c / (75/100)))
      else pyInt (20 * (1 - min 1 ((c - 95/100) / (10/100))))) ∧
    (if 75/100 ≤ c ∧ c ≤ 95/100 then (20 : Int)
      else if c < 75/100 then pyInt (20 * (c / (75/100)))
      else pyInt (20 * (1 - min 1 ((c - 95/100) / (10/100))))) ≤ 20 := by
  split_ifs with h1 h2
  · exact ⟨by norm_num, le_refl _⟩
  · have hq0 : (0 : Rat) ≤ 20 * (c / (75/100)) := by positivity
    constructor
    · exact pyInt_nonneg hq0
    · refine pyInt_le hq0 ?_
      have : c / (75/100) ≤ 1 := by
        rw [div_le_one (by norm_num)]
        linarith
      push_cast
      nlinarith
  · have hx : (0 : Rat) ≤ (c - 95/100) / (10/100) := by
      have hc95 : 95/100 ≤ c := by
        rcases not_and_or.1 h1 with h | h
        · exact absurd (not_le.1 h) (not_lt.2 (le_of_not_lt h2))
        · linarith [not_le.1 h]
      exact div_nonneg (by linarith) (by norm_num)
    have := ramp_score_bounds 20 (by norm_num) hx
    exact_mod_cast this

theorem check_centering_bounds (img : RGBImage) :
    0 ≤ (check_centering img).centerScore ∧ (check_centering img).centerScore ≤ 20 ∧
    0 ≤ (check_centering img).coverageScore ∧ (check_centering img).coverageScore ≤ 20 ∧
    (check_centering img).score =
      (check_centering img).centerScore + (check_centering img).coverageScore := by
  unfold check_centering
  rcases hbb : find_content_bbox img with _ | ⟨l, t, r, b⟩
  · exact ⟨le_refl _, by norm_num, le_refl _, by norm_num, rfl⟩
  · obtain ⟨hlr, htb, hrw, hbh⟩ := find_content_bbox_le hbb
    dsimp only
    have hw0 : (0 : Rat) ≤ (img.width : Rat) := Nat.cast_nonneg _
    have hh0 : (0 : Rat) ≤ (img.height : Rat) := Nat.cast_nonneg _
    have ho : (0 : Rat) ≤
        max (|(l : Rat) + ((r : Rat) - (l : Rat)) / 2 - (img.width : Rat) / 2| / (img.width : Rat))
          (|(t : Rat) + ((b : Rat) - (t : Rat)) / 2 - (img.height : Rat) / 2| / (img.height : Rat)) :=
      le_trans (div_nonneg (abs_nonneg _) hw0) (le_max_left _ _)
    have hcw : (0 : Rat) ≤ ((r : Rat) - (l : Rat)) / (img.width : Rat) := by
      have : (l : Rat) ≤ (r : Rat) := by exact_mod_cast le_of_lt hlr
      apply div_nonneg (by linarith) hw0
    have hcov : (0 : Rat) ≤
        max (((r : Rat) - (l : Rat)) / (img.width : Rat))
          (((b : Rat) - (t : Rat)) / (img.height : Rat)) :=
      le_trans hcw (le_max_left _ _)
    obtain ⟨hc1, hc2⟩ := center_score_cases _ ho
    obtain ⟨hv1, hv2⟩ := coverage_score_cases _ hcov
    exact ⟨hc1, hc2, hv1, hv2, rfl⟩

theorem regionDelta_nonneg (img : RGBImage) (x0 y0 : Int) (s : Nat) :
    0 ≤ regionDelta img x0 y0 s := by
  unfold regionDelta
  apply div_nonneg
  · apply List.sum_nonneg
    intro x hx
    rcases List.mem_map.1 hx with ⟨p, -, rfl⟩
    unfold pixelDelta
    positivity
  · exact Nat.cast_nonneg _

theorem check_background_purity_bounds (img : RGBImage) :
    0 ≤ (check_background_purity img).1 ∧ (check_background_purity img).1 ≤ 30 := by
  unfold check_background_purity
  dsimp only
  have havg : (0 : Rat) ≤
      (regionDelta img 0 0 (max 10 (min img.width img.height / 20)) +
        regionDelta img ((img.width : Int) - (max 10 (min img.width img.height / 20) : Nat)) 0
          (max 10 (min img.width img.height / 20)) +
        regionDelta img 0 ((img.height : Int) - (max 10 (min img.width img.height / 20) : Nat))
          (max 10 (min img.width img.height / 20)) +
        regionDelta img ((img.width : Int) - (max 10 (min img.width img.height / 20) : Nat))
          ((img.height : Int) - (max 10 (min img.width img.height / 20) : Nat))
          (max 10 (min img.width img.height / 20))) / 4 := by
    have h1 := regionDelta_nonneg img 0 0 (max 10 (min img.width img.height / 20))
    have h2 := regionDelta_nonneg img
      ((img.width : Int) - (max 10 (min img.width img.height / 20) : Nat)) 0
      (max 10 (min img.width img.height / 20))
    have h3 := regionDelta_nonneg img 0
      ((img.height : Int) - (max 10 (min img.width img.height / 20) : Nat))
      (max 10 (min img.width img.height / 20))
    have h4 := regionDelta_nonneg img
      ((img.width : Int) - (max 10 (min img.width img.height / 20) : Nat))
      ((img.height : Int) - (max 10 (min img.width img.height / 20) : Nat))
      (max 10 (min img.width img.height / 20))
    positivity
  split_ifs with h1
  · exact ⟨by norm_num, le_refl _⟩
  · have := ramp_score_bounds 30 (by norm_num) (div_nonneg havg (by norm_num : (0:Rat) ≤ 50))
    exact_mod_cast this

/-- Claim C6: for every image the total quality score is the sum of the
three sub-scores, each sub-score stays inside its weight
(resolution at most 30, centering at most 40, background at most 30), the
total is an integer between 0 and 100, and `passed` holds exactly when the
score is at least 80. -/
theorem quality_score_bounds (img : RGBImage) :
    (calculate_quality_score img).score =
      (calculate_quality_score img).resolutionScore +
        (calculate_quality_score img).centeringScore +
        (calculate_quality_score img).backgroundScore ∧
    0 ≤ (calculate_quality_score img).resolutionScore ∧
    (calculate_quality_score img).resolutionScore ≤ 30 ∧
    0 ≤ (calculate_quality_score img).centeringScore ∧
    (calculate_quality_score img).centeringScore ≤ 40 ∧
    0 ≤ (calculate_quality_score img).backgroundScore ∧
    (calculate_quality_score img).backgroundScore ≤ 30 ∧
    0 ≤ (calculate_quality_score img).score ∧
    (calculate_quality_score img).score ≤ 100 ∧
    ((calculate_quality_score img).passed = true ↔ 80 ≤ (calculate_quality_score img).score) := by
  obtain ⟨hr0, hr30⟩ := check_resolution_bounds img
  obtain ⟨hc0, hc20, hv0, hv20, hsum⟩ := check_centering_bounds img
  obtain ⟨hb0, hb30⟩ := check_background_purity_bounds img
  unfold calculate_quality_score
  dsimp only
  refine ⟨rfl, hr0, hr30, ?_, ?_, hb0, hb30, ?_, ?_, decide_eq_true_iff⟩ <;> omega

/-- Claim C5 (amended): for an image with content the centering sub-score
is 20 at `offset ≤ 0.15`; above the threshold it equals
`int(20 * (1 - offset/0.5))` -- a line anchored at offset 0, worth
`int(40 * (0.5 - offset))`, which is at most 13 for any offset above the
threshold (so the score drops discontinuously from 20 to at most 13 at
0.15, instead of degrading linearly from 20) -- and it is 0 from offset
0.5 on. -/
theorem centering_score_ramp (img : RGBImage)
    (h : (check_centering img).noContent = false) :
    ((check_centering img).maxOffset ≤ 15/100 → (check_centering img).centerScore = 20) ∧
    (15/100 < (check_centering img).maxOffset → (check_centering img).maxOffset ≤ 1/2 →
      (check_centering img).centerScore =
        pyInt (40 * (1/2 - (check_centering img).maxOffset))) ∧
    (1/2 ≤ (check_centering img).maxOffset → (check_centering img).centerScore = 0) ∧
    (15/100 < (check_centering img).maxOffset → (check_centering img).centerScore ≤ 13) := by
  unfold check_centering at h ⊢
  rcases hbb : find_content_bbox img with _ | ⟨l, t, r, b⟩
  · rw [hbb] at h; cases h
  · dsimp only
    set o : Rat :=
      max (|(l : Rat) + ((r : Rat) - (l : Rat)) / 2 - (img.width : Rat) / 2| / (img.width : Rat))
        (|(t : Rat) + ((b : Rat) - (t : Rat)) / 2 - (img.height : Rat) / 2| / (img.height : Rat))
      with ho
    refine ⟨fun h1 => if_pos h1, fun h1 h2 => ?_, fun h3 => ?_, fun h1 => ?_⟩
    · rw [if_neg (not_le.2 h1)]
      have hmin : min 1 (o / (5/10)) = o / (5/10) :=
        min_eq_right ((div_le_one (by norm_num)).2 (by linarith))
      rw [hmin]
      congr 1
      ring
    · rw [if_neg (by intro hc; linarith)]
      have hmin : min 1 (o / (5/10)) = 1 :=
        min_eq_left ((le_div_iff₀ (by norm_num)).2 (by linarith))
      rw [hmin, show (20 : Rat) * (1 - 1) = 0 by ring]
      decide
    · rw [if_neg (not_le.2 h1)]
      by_cases h2 : o ≤ 1/2
      · have hmin : min 1 (o / (5/10)) = o / (5/10) :=
          min_eq_right ((div_le_one (by norm_num)).2 (by linarith))
        rw [hmin, show (20 : Rat) * (1 - o / (5/10)) = 40 * (1/2 - o) by ring]
        have h0 : (0 : Rat) ≤ 40 * (1/2 - o) := by linarith
        have hlt : (40 : Rat) * (1/2 - o) < ((14 : Int) : Rat) := by push_cast; linarith
        have := pyInt_lt h0 hlt
        omega
      · push_neg at h2
        have hmin : min 1 (o / (5/10)) = 1 :=
          min_eq_left ((le_div_iff₀ (by norm_num)).2 (by linarith))
        rw [hmin, show (20 : Rat) * (1 - 1) = 0 by ring]
        decide

theorem check_centering_imgOffCenter_eval :
    check_centering imgOffCenter = ⟨18, 10, 8, 1/4, 3/10, false⟩ := by
  have hbb : find_content_bbox imgOffCenter = some (2, 6, 8, 12) := by decide
  unfold check_centering
  rw [hbb]
  dsimp only
  simp only [CenteringResult.mk.injEq]
  norm_num [pyInt, rat_floor_eq_int_floor, imgOffCenter]

theorem spec_linear_quarter : specCenterScoreLinear (1/4) = 14 := by
  unfold specCenterScoreLinear pyInt
  norm_num [rat_floor_eq_int_floor]

/-- Witness for the amended C5 theorem on `imgOffCenter`
(`maxOffset = 1/4`): the ramp value is `int(40 * (1/2 - 1/4)) = 10`. -/
theorem centering_score_ramp_witness :
    (check_centering imgOffCenter).noContent = false ∧
    15/100 < (check_centering imgOffCenter).maxOffset ∧
    (check_centering imgOffCenter).maxOffset ≤ 1/2 ∧
    (check_centering imgOffCenter).centerScore =
      pyInt (40 * (1/2 - (check_centering imgOffCenter).maxOffset)) :=
  ⟨by rw [check_centering_imgOffCenter_eval],
    by rw [check_centering_imgOffCenter_eval]; norm_num,
    by rw [check_centering_imgOffCenter_eval]; norm_num,
    (centering_score_ramp imgOffCenter (by rw [check_centering_imgOffCenter_eval])).2.1
      (by rw [check_centering_imgOffCenter_eval]; norm_num)
      (by rw [check_centering_imgOffCenter_eval]; norm_num)⟩

/-- Counterexample to claim C5 as stated: `imgOffCenter` has
`maxOffset = 1/4`, strictly between 0.15 and 0.5; a linear ramp from 20 at
0.15 to 0 at 0.5 would give `int(20 * (0.5 - 0.25) / 0.35) = 14`, but the
code computes `int(20 * (1 - 0.25/0.5)) = 10`. -/
theorem centering_ramp_not_linear_from_20 : ¬ claimC5 := by
  intro h
  have h2 := (h imgOffCenter (by rw [check_centering_imgOffCenter_eval])).2.1
    (by rw [check_centering_imgOffCenter_eval]; norm_num)
    (by rw [check_centering_imgOffCenter_eval]; norm_num)
  simp only [check_centering_imgOffCenter_eval, spec_linear_quarter] at h2
  cases h2

/-! ## Geometry of the composer -/

theorem mem_allCoords {w h : Nat} {p : Nat × Nat} (hp : p ∈ allCoords w h) :
    p.1 < w ∧ p.2 < h := by
  unfold allCoords at hp
  rcases List.mem_flatMap.1 hp with ⟨y, hy, hx⟩
  rcases List.mem_map.1 hx with ⟨x, hxx, rfl⟩
  exact ⟨List.mem_range.1 hxx, List.mem_range.1 hy⟩

theorem alphaPoints_nil {img : Img} (h : fullyTransparent img) : alphaPoints img = [] := by
  unfold alphaPoints
  rw [List.filter_eq_nil_iff]
  intro p hp
  obtain ⟨hx, hy⟩ := mem_allCoords hp
  simp [h p.1 p.2 hx hy]

theorem get_content_bbox_lt {img : Img} {l t r b : Nat}
    (h : get_content_bbox img = some (l, t, r, b)) : l < r ∧ t < b := by
  unfold get_content_bbox at h
  rcases hps : alphaPoints img with _ | ⟨p, ps⟩
  · rw [hps] at h; cases h
  · rw [hps] at h
    dsimp only at h
    cases h
    have hp : p ∈ p :: ps := List.mem_cons_self _ _
    have hx1 : p.1 ∈ (p :: ps).map Prod.fst := List.mem_map_of_mem _ hp
    have hy1 : p.2 ∈ (p :: ps).map Prod.snd := List.mem_map_of_mem _ hp
    have h1 := foldr_min_le_of_mem (a := img.width) hx1
    have h2 := le_foldr_max_of_mem (a := 0) hx1
    have h3 := foldr_min_le_of_mem (a := img.height) hy1
    have h4 := le_foldr_max_of_mem (a := 0) hy1
    omega

theorem scaled_width_le (pw ph target : Nat) (hpw : 0 < pw) (h7 : 7 ≤ target) :
    natFloor ((pw : Rat) * calculate_scale pw ph target) ≤ target - 2 := by
  unfold calculate_scale PRODUCT_COVERAGE natFloor
  dsimp only
  have hpw' : (0 : Rat) < (pw : Rat) := by exact_mod_cast hpw
  have hq : (pw : Rat) *
      min (((target : Rat) * (85/100)) / (pw : Rat)) (((target : Rat) * (85/100)) / (ph : Rat))
      ≤ (target : Rat) * (85/100) := by
    calc (pw : Rat) *
        min (((target : Rat) * (85/100)) / (pw : Rat)) (((target : Rat) * (85/100)) / (ph : Rat))
        ≤ (pw : Rat) * (((target : Rat) * (85/100)) / (pw : Rat)) :=
          mul_le_mul_of_nonneg_left (min_le_left _ _) (le_of_lt hpw')
      _ = (target : Rat) * (85/100) := by field_simp; ring
  have ht7 : (7 : Rat) ≤ (target : Rat) := by exact_mod_cast h7
  have hfl : ((pw : Rat) *
      min (((target : Rat) * (85/100)) / (pw : Rat)) (((target : Rat) * (85/100)) / (ph : Rat))).floor
      ≤ (target : Int) - 2 := by
    rw [rat_floor_eq_int_floor]
    have hlt : (pw : Rat) *
        min (((target : Rat) * (85/100)) / (pw : Rat)) (((target : Rat) * (85/100)) / (ph : Rat))
        < (((target : Int) - 1 : Int) : Rat) := by
      push_cast
      linarith
    have := Int.floor_lt.2 hlt
    omega
  rw [Int.toNat_le]
  omega

theorem paste_mask_px_outside
    (blend : (Nat × Nat × Nat × Nat) → (Nat × Nat × Nat × Nat) → Nat → Nat × Nat × Nat × Nat)
    (base src mask : Img) (x0 y0 i j : Nat)
    (h : ¬ (x0 ≤ i ∧ i < x0 + src.width ∧ y0 ≤ j ∧ j < y0 + src.height)) :
    (paste_mask blend base src mask x0 y0).px i j = base.px i j := by
  unfold paste_mask
  dsimp only
  rw [if_neg h]

theorem create_shadow_width (ops : PixOps) (hB : BlurContract ops.blur) (product : Img) :
    (create_shadow ops product).width = product.width := by
  unfold create_shadow
  rw [(hB _).1]
  rfl

theorem compose_core_corner (ops : PixOps) (hR : ResizeContract ops.resize)
    (hB : BlurContract ops.blur) (image : Img) (target : Nat) (h7 : 7 ≤ target)
    (x y : Nat) (hx : x = 0 ∨ x = target - 1) (out : Img)
    (hok : compose_core ops image target = .ok out) :
    out.px x y = (255, 255, 255, 255) := by
  unfold compose_core at hok
  rcases hbb : get_content_bbox image with _ | ⟨l, t, r, b⟩
  · rw [hbb] at hok
    cases hok
    rfl
  · rw [hbb] at hok
    obtain ⟨hlr, htb⟩ := get_content_bbox_lt hbb
    dsimp only at hok
    simp only [crop] at hok
    by_cases hz : natFloor (((r - l : Nat) : Rat) * calculate_scale (r - l) (b - t) target) = 0 ∨
        natFloor (((b - t : Nat) : Rat) * calculate_scale (r - l) (b - t) target) = 0
    · rw [if_pos hz] at hok; cases hok
    · rw [if_neg hz] at hok
      push_neg at hz
      cases hok
      have hnw : natFloor (((r - l : Nat) : Rat) * calculate_scale (r - l) (b - t) target)
          ≤ target - 2 :=
        scaled_width_le (r - l) (b - t) target (by omega) h7
      have hrw := (hR ⟨r - l, b - t, image.mode, fun i j => image.px (l + i) (t + j)⟩
        (natFloor (((r - l : Nat) : Rat) * calculate_scale (r - l) (b - t) target))
        (natFloor (((b - t : Nat) : Rat) * calculate_scale (r - l) (b - t) target))
        (Nat.pos_of_ne_zero hz.1) (Nat.pos_of_ne_zero hz.2)).1
      have hsw := (create_shadow_width ops hB
        (ops.resize ⟨r - l, b - t, image.mode, fun i j => image.px (l + i) (t + j)⟩
          (natFloor (((r - l : Nat) : Rat) * calculate_scale (r - l) (b - t) target))
          (natFloor (((b - t : Nat) : Rat) * calculate_scale (r - l) (b - t) target)))).trans hrw
      simp only [paste_mask, SHADOW_OFFSET]
      split_ifs with h1 h2 h2
      · exfalso; rw [hrw] at h1; rcases hx with rfl | rfl <;> omega
      · exfalso; rw [hrw] at h1; rcases hx with rfl | rfl <;> omega
      · exfalso; rw [hsw] at h2; rcases hx with rfl | rfl <;> omega
      · rfl

theorem compose_core_size (ops : PixOps) (image : Img) (target : Nat) (out : Img)
    (hok : compose_core ops image target = .ok out) :
    out.width = target ∧ out.height = target ∧ out.mode = PMode.RGB := by
  unfold compose_core at hok
  rcases hbb : get_content_bbox image with _ | ⟨l, t, r, b⟩
  · rw [hbb] at hok; cases hok; exact ⟨rfl, rfl, rfl⟩
  · rw [hbb] at hok
    dsimp only at hok
    simp only [crop] at hok
    by_cases hz : natFloor (((r - l : Nat) : Rat) * calculate_scale (r - l) (b - t) target) = 0 ∨
        natFloor (((b - t : Nat) : Rat) * calculate_scale (r - l) (b - t) target) = 0
    · rw [if_pos hz] at hok; cases hok
    · rw [if_neg hz] at hok; cases hok; exact ⟨rfl, rfl, rfl⟩

theorem compose_core_transparent (ops : PixOps) (image : Img) (target : Nat)
    (h : fullyTransparent image) :
    compose_core ops image target = .ok (whiteCanvas target) := by
  have hbb : get_content_bbox image = none := by
    unfold get_content_bbox
    rw [alphaPoints_nil h]
  unfold compose_core
  rw [hbb]

theorem compose_core_error (ops : PixOps) (image : Img) (target : Nat) (e : String)
    (he : compose_core ops image target = .error e) : e = msgSizePositive := by
  unfold compose_core at he
  rcases hbb : get_content_bbox image with _ | ⟨l, t, r, b⟩
  · rw [hbb] at he; cases he
  · rw [hbb] at he
    dsimp only at he
    simp only [crop] at he
    by_cases hz : natFloor (((r - l : Nat) : Rat) * calculate_scale (r - l) (b - t) target) = 0 ∨
        natFloor (((b - t : Nat) : Rat) * calculate_scale (r - l) (b - t) target) = 0
    · rw [if_pos hz] at he; cases he; rfl
    · rw [if_neg hz] at he; cases he

theorem resizeNearest_contract : ResizeContract resizeNearest :=
  fun _ _ _ _ _ => ⟨rfl, rfl, rfl⟩

theorem blur_id_contract : BlurContract (fun i => i) :=
  fun _ => ⟨rfl, rfl, rfl⟩

theorem compose_rgba_unfold (ops : PixOps) (img : Img) (n : Nat)
    (hm : img.mode = PMode.RGBA) (hn : 1 ≤ n) :
    compose_white_background ops img (some n) = compose_core ops img n := by
  unfold compose_white_background
  dsimp only
  rw [if_neg (by omega : ¬ n = 0), if_pos hm]

/-- A 1x7 opaque RGBA sliver: its aspect ratio exceeds the 85% coverage
budget at target 7, so `int(1 * 0.85) = 0` and the composition raises
Pillow's zero-size `resize` error instead of returning an image. -/
def imgSliver : Img :=
  ⟨1, 7, PMode.RGBA, fun _ _ => (0, 0, 0, 255)⟩

theorem compose_sliver_raises :
    compose_white_background pixOpsSimple imgSliver (some 7) = .error msgSizePositive := by
  have hc : compose_white_background pixOpsSimple imgSliver (some 7) =
      compose_core pixOpsSimple imgSliver 7 := rfl
  rw [hc]
  unfold compose_core
  rw [show get_content_bbox imgSliver = some (0, 0, 1, 7) from by decide]
  dsimp only
  simp only [crop, Nat.sub_zero]
  rw [show calculate_scale 1 7 7 = 85/100 from by
    unfold calculate_scale PRODUCT_COVERAGE; norm_num]
  rw [show natFloor (((1 : Nat) : Rat) * (85/100)) = 0 from by
    unfold natFloor; rw [rat_floor_eq_int_floor]; norm_num]
  rw [if_pos (Or.inl rfl)]

/-- Claim C7 (amended): for every RGBA input and positive target size `N`
(a zero `N` is falsy in Python and falls back to the 1200 default): a
fully transparent input yields the plain white `N × N` canvas; whenever
`compose` returns an image it is exactly `N × N`, RGB, and for `N ≥ 7`
its four corner pixels are exactly pure white; and the only way `compose`
fails on an RGBA input is Pillow's `height and width must be > 0` resize
error, raised when `int(dim * scale)` collapses to 0 because the cropped
aspect ratio exceeds `0.85 * N` (`compose_sliver_raises` reaches it).
The corner clause quantified over every `N` is refuted by the recorded
counterexample at `N = 2`. -/
theorem compose_shape_and_corners (ops : PixOps) (hR : ResizeContract ops.resize)
    (hB : BlurContract ops.blur) (img : Img) (n : Nat) (hm : img.mode = PMode.RGBA)
    (hn : 1 ≤ n) :
    (fullyTransparent img →
      compose_white_background ops img (some n) = .ok (whiteCanvas n)) ∧
    (∀ out, compose_white_background ops img (some n) = .ok out →
      out.width = n ∧ out.height = n ∧ out.mode = PMode.RGB ∧
      (7 ≤ n → ∀ c ∈ cornerList n, out.px c.1 c.2 = (255, 255, 255, 255))) ∧
    (∀ e, compose_white_background ops img (some n) = .error e → e = msgSizePositive) := by
  have hu := compose_rgba_unfold ops img n hm hn
  refine ⟨?_, ?_, ?_⟩
  · intro ht
    rw [hu]
    exact compose_core_transparent ops img n ht
  · intro out hok
    rw [hu] at hok
    obtain ⟨hw, hh, hmo⟩ := compose_core_size ops img n out hok
    refine ⟨hw, hh, hmo, fun h7 c hc => ?_⟩
    simp only [cornerList, List.mem_cons, List.not_mem_nil, or_false] at hc
    rcases hc with rfl | rfl | rfl | rfl
    · exact compose_core_corner ops hR hB img n h7 0 0 (Or.inl rfl) out hok
    · exact compose_core_corner ops hR hB img n h7 (n - 1) 0 (Or.inr rfl) out hok
    · exact compose_core_corner ops hR hB img n h7 0 (n - 1) (Or.inl rfl) out hok
    · exact compose_core_corner ops hR hB img n h7 (n - 1) (n - 1) (Or.inr rfl) out hok
  · intro e he
    rw [hu] at he
    exact compose_core_error ops img n e he

/-- Witness for the amended C7 theorem on the transparent input at the
default-size target. -/
theorem compose_shape_and_corners_witness :
    ResizeContract pixOpsSimple.resize ∧ BlurContract pixOpsSimple.blur ∧
    imgTransparent.mode = PMode.RGBA ∧ 1 ≤ 1200 ∧
    ((fullyTransparent imgTransparent →
        compose_white_background pixOpsSimple imgTransparent (some 1200) =
          .ok (whiteCanvas 1200)) ∧
      (∀ out, compose_white_background pixOpsSimple imgTransparent (some 1200) = .ok out →
        out.width = 1200 ∧ out.height = 1200 ∧ out.mode = PMode.RGB ∧
        (7 ≤ 1200 → ∀ c ∈ cornerList 1200, out.px c.1 c.2 = (255, 255, 255, 255))) ∧
      (∀ e, compose_white_background pixOpsSimple imgTransparent (some 1200) = .error e →
        e = msgSizePositive)) :=
  ⟨resizeNearest_contract, blur_id_contract, rfl, by norm_num,
    compose_shape_and_corners pixOpsSimple resizeNearest_contract blur_id_contract
      imgTransparent 1200 rfl (by norm_num)⟩

theorem compose_one_pixel_eval (out : Img)
    (h : compose_white_background pixOpsSimple imgOnePixel (some 2) = .ok out) :
    out.px 0 0 = (0, 0, 0, 255) := by
  have hc : compose_white_background pixOpsSimple imgOnePixel (some 2) =
      compose_core pixOpsSimple imgOnePixel 2 := rfl
  rw [hc] at h
  unfold compose_core at h
  rw [show get_content_bbox imgOnePixel = some (0, 0, 1, 1) from by decide] at h
  dsimp only at h
  simp only [crop, Nat.sub_zero] at h
  rw [show calculate_scale 1 1 2 = 17/10 from by
    unfold calculate_scale PRODUCT_COVERAGE; norm_num] at h
  rw [show natFloor (((1 : Nat) : Rat) * (17/10)) = 1 from by
    unfold natFloor; rw [rat_floor_eq_int_floor]; norm_num] at h
  rw [if_neg (by norm_num : ¬ ((1 : Nat) = 0 ∨ (1 : Nat) = 0))] at h
  cases h
  decide

/-- Counterexample to claim C7 as stated: at target size 2 a 1x1 opaque
black cut-out is scaled to 1x1 (no zero-size raise on this input) and
pasted at the canvas origin, so the corner pixel of the output is black,
far outside any small tolerance of white. -/
theorem small_target_corner_not_white : ¬ claimC7 := by
  intro h
  obtain ⟨out, hok, -, -, -, hcorn, -⟩ :=
    h pixOpsSimple resizeNearest_contract blur_id_contract imgOnePixel 2 rfl (by norm_num)
  have h00 : out.px 0 0 = (0, 0, 0, 255) := compose_one_pixel_eval out hok
  have hnc := hcorn ⟨0, 0, by decide, by decide, by decide⟩ (0, 0) (by decide)
  rw [h00] at hnc
  exact absurd hnc.1 (by norm_num)

/-- Claim C8 (amended): `compose_white_background` raises the no-alpha
`ValueError` exactly for mode-`RGB` inputs.  An alpha-less input in any
other mode (the grayscale `L` family) is never rejected by the alpha
check: it is converted to fully opaque RGBA and composed, and the only
error it can still raise is Pillow's zero-size `resize` error for
degenerate aspect ratios -- never the no-alpha rejection. -/
theorem compose_mode_gate (ops : PixOps) (img : Img) (t : Option Nat) :
    (img.mode = PMode.RGB → compose_white_background ops img t = .error msgNoAlpha) ∧
    (img.mode = PMode.L → ∀ e, compose_white_background ops img t = .error e →
      e = msgSizePositive) := by
  constructor
  · intro h
    unfold compose_white_background
    rw [h]
    rfl
  · intro h
    obtain ⟨iw, ihh, m, ipx⟩ := img
    dsimp only at h
    subst h
    have hc : compose_white_background ops ⟨iw, ihh, PMode.L, ipx⟩ t =
        compose_core ops (convert_to_rgba ⟨iw, ihh, PMode.L, ipx⟩)
          (match t with | some t' => if t' = 0 then 1200 else t' | none => 1200) := rfl
    intro e he
    rw [hc] at he
    exact compose_core_error _ _ _ e he

/-- Witness for the amended C8 theorem on a flat RGB image. -/
theorem compose_mode_gate_witness :
    (⟨1, 1, PMode.RGB, fun _ _ => (0, 0, 0, 0)⟩ : Img).mode = PMode.RGB ∧
    compose_white_background pixOpsSimple ⟨1, 1, PMode.RGB, fun _ _ => (0, 0, 0, 0)⟩
      (some 1200) = .error msgNoAlpha :=
  ⟨rfl, (compose_mode_gate pixOpsSimple ⟨1, 1, PMode.RGB, fun _ _ => (0, 0, 0, 0)⟩
    (some 1200)).1 rfl⟩

/-- Counterexample to claim C8 as stated: the 1x1 grayscale (`L`) image
has no alpha channel, yet `compose_white_background` converts it and
returns an image instead of raising. -/
theorem gray_input_composed : ¬ claimC8 := by
  intro h
  obtain ⟨e, he⟩ := h pixOpsSimple imgGrayL (some 1200) (Or.inr rfl)
  have hc : compose_white_background pixOpsSimple imgGrayL (some 1200) =
      compose_core pixOpsSimple (convert_to_rgba imgGrayL) 1200 := rfl
  rw [hc] at he
  unfold compose_core at he
  rw [show get_content_bbox (convert_to_rgba imgGrayL) = some (0, 0, 1, 1) from by decide] at he
  dsimp only at he
  simp only [crop, Nat.sub_zero] at he
  rw [show calculate_scale 1 1 1200 = 1020 from by
    unfold calculate_scale PRODUCT_COVERAGE; norm_num] at he
  rw [show natFloor (((1 : Nat) : Rat) * 1020) = 1020 from by
    unfold natFloor; rw [rat_floor_eq_int_floor]; norm_num; decide] at he
  rw [if_neg (by norm_num : ¬ ((1020 : Nat) = 0 ∨ (1020 : Nat) = 0))] at he
  cases he

/-- Claim C9: at the default target size 1200, whenever
`compose_white_background` returns an image for an RGBA input, that image
is 1200 x 1200 and its four corner pixels are exactly pure white
(255, 255, 255): the scaled product is at most 1020 pixels wide, so the
product paste and the shadow paste (shadow sized to the resized product,
offset by (0, 10)) never reach the first or last canvas column.  (Inputs
whose scaled bounding box collapses to zero width or height make the real
composition raise inside Pillow's `resize` and return no image at all.) -/
theorem compose_default_target_corners (ops : PixOps) (hR : ResizeContract ops.resize)
    (hB : BlurContract ops.blur) (img : Img) (hm : img.mode = PMode.RGBA) (out : Img)
    (hok : compose_white_background ops img (some 1200) = .ok out) :
    out.width = 1200 ∧ out.height = 1200 ∧
    out.px 0 0 = (255, 255, 255, 255) ∧ out.px 1199 0 = (255, 255, 255, 255) ∧
    out.px 0 1199 = (255, 255, 255, 255) ∧ out.px 1199 1199 = (255, 255, 255, 255) := by
  rw [compose_rgba_unfold ops img 1200 hm (by norm_num)] at hok
  obtain ⟨hw, hh, -⟩ := compose_core_size ops img 1200 out hok
  have h7 : (7 : Nat) ≤ 1200 := by norm_num
  exact ⟨hw, hh,
    compose_core_corner ops hR hB img 1200 h7 0 0 (Or.inl rfl) out hok,
    compose_core_corner ops hR hB img 1200 h7 1199 0 (Or.inr rfl) out hok,
    compose_core_corner ops hR hB img 1200 h7 0 1199 (Or.inl rfl) out hok,
    compose_core_corner ops hR hB img 1200 h7 1199 1199 (Or.inr rfl) out hok⟩

theorem compose_transparent_default_ok :
    compose_white_background pixOpsSimple imgTransparent (some 1200) =
      .ok (whiteCanvas 1200) := by
  have hu : compose_white_background pixOpsSimple imgTransparent (some 1200) =
      compose_core pixOpsSimple imgTransparent 1200 := rfl
  rw [hu]
  exact compose_core_transparent pixOpsSimple imgTransparent 1200 (fun _ _ _ _ => rfl)

/-- Witness for C9 on the fully transparent RGBA image, whose composition
concretely returns the white canvas. -/
theorem compose_default_target_corners_witness :
    imgTransparent.mode = PMode.RGBA ∧
    compose_white_background pixOpsSimple imgTransparent (some 1200) =
      .ok (whiteCanvas 1200) ∧
    ((whiteCanvas 1200).width = 1200 ∧ (whiteCanvas 1200).height = 1200 ∧
      (whiteCanvas 1200).px 0 0 = (255, 255, 255, 255) ∧
      (whiteCanvas 1200).px 1199 0 = (255, 255, 255, 255) ∧
      (whiteCanvas 1200).px 0 1199 = (255, 255, 255, 255) ∧
      (whiteCanvas 1200).px 1199 1199 = (255, 255, 255, 255)) :=
  ⟨rfl, compose_transparent_default_ok,
    compose_default_target_corners pixOpsSimple resizeNearest_contract blur_id_contract
      imgTransparent rfl (whiteCanvas 1200) compose_transparent_default_ok⟩
